import Mathlib

/-!
Verification of the vePhone UI-test task execution engine
(`ui_test_demo/src/case_runner.py` and `ui_test_demo/src/mobile_use.py`)
against its natural-language specification.

Python's loosely-typed JSON-like values are embedded as the inductive
type `PyVal`.  Pure Python functions are translated one-to-one into Lean
functions; stateful functions (the cancellation cache, the pod-info
cache, the polling loop) become explicit state-passing functions whose
remote calls are supplied by oracle parameters.  Machine integers do not
overflow in the modelled code paths, so `Int`/`Nat` are used directly.
-/

/-- Model of a Python JSON-like value (`None`, `bool`, `int`, `str`,
`list`, `dict` with insertion-ordered string keys), as passed around by
`case_runner.py`.  Dicts are association lists in insertion order. -/
inductive PyVal where
  | none
  | bool (b : Bool)
  | int (n : Int)
  | str (s : String)
  | list (xs : List PyVal)
  | dict (xs : List (String × PyVal))

/-- Python truthiness (`bool(v)`) for the embedded values. -/
def pyTruthy : PyVal → Bool
  | .none => false
  | .bool b => b
  | .int n => n != 0
  | .str s => s != ""
  | .list xs => !xs.isEmpty
  | .dict xs => !xs.isEmpty

/-- Model of `isinstance(v, dict)`. -/
def pyIsDict : PyVal → Bool
  | .dict _ => true
  | _ => false

/-- Model of `isinstance(v, str)`. -/
def pyIsStr : PyVal → Bool
  | .str _ => true
  | _ => false

/-- Association-list lookup used to model `d.get(k)` on a Python dict:
first binding of the key, `None` when the key is absent or the value is
not a dict. -/
def pyGet : PyVal → String → PyVal
  | .dict xs, k => (xs.lookup k).getD .none
  | _, _ => .none

/-- Model of `k in d` on a Python dict. -/
def pyHasKey : PyVal → String → Bool
  | .dict xs, k => xs.any (fun p => p.1 == k)
  | _, _ => false

/-- Python's `a or b`: `a` when truthy, else `b`. -/
def pyOr (a b : PyVal) : PyVal :=
  if pyTruthy a then a else b

/-- Python whitespace recognised by `str.strip()` (ASCII subset; the
modelled payloads use only ASCII whitespace). -/
def pyIsSpace (c : Char) : Bool :=
  c == ' ' || c == '\t' || c == '\n' || c == '\x0d' || c == '\x0c' || c == '\x0b'

/-- Model of `str.strip()` on a character list. -/
def stripChars (cs : List Char) : List Char :=
  ((cs.dropWhile pyIsSpace).reverse.dropWhile pyIsSpace).reverse

/-- Model of `str.strip()`. -/
def pyStrip (s : String) : String :=
  String.mk (stripChars s.data)

/-- Model of `str.isdigit()` (ASCII digits; non-empty). -/
def pyIsDigit (s : String) : Bool :=
  !s.data.isEmpty && s.data.all Char.isDigit

/-- Value of a non-empty ASCII digit string. -/
def digitsToNat (cs : List Char) : Nat :=
  cs.foldl (fun acc c => acc * 10 + (c.toNat - '0'.toNat)) 0

/-- Python `str(v)` (`repr` for nested values; only the `str` case is
reached by the proved theorems, the composite cases stand in for `repr`
without reproducing its escaping). -/
def pyStr : PyVal → String
  | .none => "None"
  | .bool b => if b then "True" else "False"
  | .int n => toString n
  | .str s => s
  | .list _ => "[...]"
  | .dict _ => "\x7b...\x7d"

/-- Embedding of `_coerce_is_success_code` (`case_runner.py:77-91`): `None` stays
absent, `bool` maps to 0/1, `int` passes through, a digit-only string
parses, everything else is `None`. -/
def coerce_is_success_code : PyVal → Option Int
  | .none => Option.none
  | .bool b => Option.some (if b then 1 else 0)
  | .int n => Option.some n
  | .str s =>
      let t := pyStrip s
      if pyIsDigit t then Option.some (Int.ofNat (digitsToNat t.data)) else Option.none
  | _ => Option.none

/-! ### Cancellation coordinator (`case_runner.py:227-269`) -/

/-- Outcome of a remote call as seen by the caller: the call raised, or
returned a value. -/
inductive RemoteOutcome where
  | exc
  | ret (v : PyVal)

/-- The process-wide cancellation response cache
`_cancel_task_resp_by_run_id` (`case_runner.py:205`). -/
structure CancelCache where
  entries : List (String × PyVal)

/-- Insert-or-replace for the Python dict assignment `d[k] = v`. -/
def assocSet {α : Type} (xs : List (String × α)) (k : String) (v : α) :
    List (String × α) :=
  match xs with
  | [] => [(k, v)]
  | (k', v') :: tl => if k' == k then (k, v) :: tl else (k', v') :: assocSet tl k v

/-- Embedding of `_remember_cancel_task_resp` (`case_runner.py:227-232`): store only
when the stripped run id is non-empty and the response is a dict. -/
def remember_cancel_task_resp (st : CancelCache) (run_id : String) (resp : PyVal) :
    CancelCache :=
  let rid := pyStrip run_id
  if rid == "" || !pyIsDict resp then st
  else ⟨assocSet st.entries rid resp⟩

/-- Embedding of `_get_cancel_task_resp` (`case_runner.py:235-240`). -/
def get_cancel_task_resp (st : CancelCache) (run_id : String) : Option PyVal :=
  let rid := pyStrip run_id
  if rid == "" then Option.none else st.entries.lookup rid

/-- Embedding of `_cancel_task_best_effort` (`case_runner.py:243-269`), with the
remote `cancel_task_raw` call supplied by the oracle `remote` (the
`exc` outcome models a raised exception, a non-dict `ret` the
"returned a non-JSON object" branch).  Returns the response handed back
to the caller, the new cache state, and whether a remote cancel call
was issued. -/
def cancel_task_best_effort (remote : String → RemoteOutcome)
    (st : CancelCache) (run_id : String) : Option PyVal × CancelCache × Bool :=
  let rid := pyStrip run_id
  if rid == "" then (Option.none, st, false)
  else
    match get_cancel_task_resp st rid with
    | Option.some cached =>
        if pyIsDict cached then (Option.some cached, st, false)
        else callRemote rid
    | Option.none => callRemote rid
where
  callRemote (rid : String) : Option PyVal × CancelCache × Bool :=
    match remote rid with
    | .exc => (Option.none, st, true)
    | .ret resp =>
        if pyIsDict resp then
          (Option.some resp, remember_cancel_task_resp st rid resp, true)
        else (Option.none, st, true)

theorem assocSet_lookup_self {α : Type} (xs : List (String × α)) (k : String) (v : α) :
    (assocSet xs k v).lookup k = Option.some v := by
  induction xs with
  | nil => simp [assocSet, List.lookup]
  | cons hd tl ih =>
      obtain ⟨k', v'⟩ := hd
      by_cases h : k' = k
      · subst h
        simp [assocSet, List.lookup]
      · have hk : (k == k') = false := by simp [Ne.symm h]
        simp [assocSet, List.lookup, h, hk, ih]

/-- C6: best-effort cancellation is idempotent per run id.  For a
stripped, non-empty `run_id` with no cached response, the first cancel
attempt issues exactly one remote call, stores the returned dict
response, and returns it; every later attempt (under any remote
behaviour `remote2`) replays the cached response and issues no remote
call. -/
theorem cancel_idempotent_per_run_id
    (remote : String → RemoteOutcome) (st : CancelCache) (run_id : String)
    (hstrip : pyStrip run_id = run_id) (hne : run_id ≠ "")
    (hmiss : st.entries.lookup run_id = Option.none)
    (d : List (String × PyVal)) (hret : remote run_id = .ret (.dict d)) :
    cancel_task_best_effort remote st run_id =
      (Option.some (.dict d), ⟨assocSet st.entries run_id (.dict d)⟩, true) ∧
    ∀ remote2 : String → RemoteOutcome,
      cancel_task_best_effort remote2 ⟨assocSet st.entries run_id (.dict d)⟩ run_id =
        (Option.some (.dict d), ⟨assocSet st.entries run_id (.dict d)⟩, false) := by
  have hbeq : (run_id == "") = false := by
    simp [hne]
  constructor
  · simp [cancel_task_best_effort, hstrip, hbeq, get_cancel_task_resp, hmiss,
      cancel_task_best_effort.callRemote, hret, pyIsDict, remember_cancel_task_resp]
  · intro remote2
    simp [cancel_task_best_effort, hstrip, hbeq, get_cancel_task_resp,
      assocSet_lookup_self, pyIsDict]

theorem cancel_idempotent_per_run_id_witness :
    cancel_task_best_effort (fun _ => .ret (.dict [("Result", .none)])) ⟨[]⟩ "r-1" =
      (Option.some (.dict [("Result", .none)]),
        ⟨assocSet [] "r-1" (.dict [("Result", .none)])⟩, true) ∧
    ∀ remote2 : String → RemoteOutcome,
      cancel_task_best_effort remote2 ⟨assocSet [] "r-1" (.dict [("Result", .none)])⟩ "r-1" =
        (Option.some (.dict [("Result", .none)]),
          ⟨assocSet [] "r-1" (.dict [("Result", .none)])⟩, false) :=
  cancel_idempotent_per_run_id (fun _ => .ret (.dict [("Result", .none)])) ⟨[]⟩ "r-1"
    rfl (by decide) rfl [("Result", .none)] rfl

/-- C9: the cancellation cache only ever stores dict responses.  When
the remote cancel raises or returns a non-dict value, the attempt
returns `None` and leaves the cache unchanged, so a later attempt for
the same run id re-issues the remote call (and, if that one returns a
dict, caches and returns it). -/
theorem cancel_failure_not_cached
    (remote : String → RemoteOutcome) (st : CancelCache) (run_id : String)
    (hstrip : pyStrip run_id = run_id) (hne : run_id ≠ "")
    (hmiss : st.entries.lookup run_id = Option.none)
    (hfail : remote run_id = .exc ∨
      ∃ v : PyVal, remote run_id = .ret v ∧ pyIsDict v = false) :
    cancel_task_best_effort remote st run_id = (Option.none, st, true) ∧
    ∀ (remote2 : String → RemoteOutcome) (d : List (String × PyVal)),
      remote2 run_id = .ret (.dict d) →
      cancel_task_best_effort remote2 st run_id =
        (Option.some (.dict d), ⟨assocSet st.entries run_id (.dict d)⟩, true) := by
  have hbeq : (run_id == "") = false := by
    simp [hne]
  constructor
  · rcases hfail with hexc | ⟨v, hv, hvd⟩
    · simp [cancel_task_best_effort, hstrip, hbeq, get_cancel_task_resp, hmiss,
        cancel_task_best_effort.callRemote, hexc]
    · simp [cancel_task_best_effort, hstrip, hbeq, get_cancel_task_resp, hmiss,
        cancel_task_best_effort.callRemote, hv, hvd]
  · intro remote2 d hret2
    simp [cancel_task_best_effort, hstrip, hbeq, get_cancel_task_resp, hmiss,
      cancel_task_best_effort.callRemote, hret2, pyIsDict, remember_cancel_task_resp]

theorem cancel_failure_not_cached_witness :
    cancel_task_best_effort (fun _ => .exc) ⟨[]⟩ "r-2" = (Option.none, ⟨[]⟩, true) ∧
    ∀ (remote2 : String → RemoteOutcome) (d : List (String × PyVal)),
      remote2 "r-2" = .ret (.dict d) →
      cancel_task_best_effort remote2 ⟨[]⟩ "r-2" =
        (Option.some (.dict d), ⟨assocSet [] "r-2" (.dict d)⟩, true) :=
  cancel_failure_not_cached (fun _ => .exc) ⟨[]⟩ "r-2" rfl (by decide) rfl (Or.inl rfl)

/-! ### Per-pod metadata lookup (`mobile_use.py:333-373`) -/

/-- The triple returned by `_get_pod_image_info`. -/
structure PodInfo where
  aosp_version : Option String
  image_name : Option String
  image_id : Option String
deriving DecidableEq

/-- The client-lifetime cache `self._pod_info_cache` (`mobile_use.py:116`). -/
structure PodInfoCache where
  entries : List (String × PodInfo)

/-- Embedding of `_as_str` (`mobile_use.py:342-346`): `None` stays `None`, anything
else is stringified and stripped, with the empty string collapsing to
`None`. -/
def as_str (v : PyVal) : Option String :=
  match v with
  | .none => Option.none
  | _ =>
      let s := pyStrip (pyStr v)
      if s == "" then Option.none else Option.some s

/-- The `PodInfo` produced from one `DetailPod` outcome
(`mobile_use.py:348-370`): default all-`None` on a raised call, a
non-dict response, or a truthy `Error`; otherwise the payload (under
`Result`, or the response itself when it carries one of the known
lower-case keys) is mined for the three fields. -/
def pod_info_from_resp (outcome : RemoteOutcome) : PodInfo :=
  match outcome with
  | .exc => ⟨Option.none, Option.none, Option.none⟩
  | .ret resp =>
      if !pyIsDict resp || pyTruthy (pyGet resp "Error") then
        ⟨Option.none, Option.none, Option.none⟩
      else
        let payload : PyVal :=
          if pyIsDict (pyGet resp "Result") then pyGet resp "Result"
          else if pyHasKey resp "pod_id" || pyHasKey resp "product_id" ||
                  pyHasKey resp "image_id" || pyHasKey resp "aosp_version" then resp
          else .none
        if pyIsDict payload then
          ⟨as_str (pyOr (pyGet payload "aosp_version") (pyGet payload "AospVersion")),
           as_str (pyOr (pyGet payload "image_name") (pyGet payload "ImageName")),
           as_str (pyOr (pyGet payload "image_id") (pyGet payload "ImageId"))⟩
        else ⟨Option.none, Option.none, Option.none⟩

/-- Embedding of `_get_pod_image_info` (`mobile_use.py:333-373`), with the
`detail_pod_raw` call supplied by the oracle `detail` (whose `exc`
outcome models a raised exception caught by the `try`).  Returns the
info, the new cache, and whether a remote `DetailPod` call was issued.
The source writes the cache either at the early error return or after
the `try`; both writes store the same computed info, folded here into
one write after `pod_info_from_resp`.  The function is total: every
oracle outcome, including `exc`, produces a result (the source never
raises). -/
def get_pod_image_info (detail : String → RemoteOutcome) (cache : PodInfoCache)
    (pod_id : Option String) : PodInfo × PodInfoCache × Bool :=
  match pod_id with
  | Option.none => (⟨Option.none, Option.none, Option.none⟩, cache, false)
  | Option.some pid =>
      if pid == "" then (⟨Option.none, Option.none, Option.none⟩, cache, false)
      else
        match cache.entries.lookup pid with
        | Option.some cached => (cached, cache, false)
        | Option.none =>
            let info := pod_info_from_resp (detail pid)
            (info, ⟨assocSet cache.entries pid info⟩, true)

/-- C10: `_get_pod_image_info` memoizes negatively and never retries.
For a non-empty pod id not yet cached, the first invocation issues the
remote call and caches whatever it computed — including the all-`None`
default when the call raised or returned an unusable payload — and
every later invocation for that pod id returns the cached value with no
remote call, under any remote behaviour. -/
theorem pod_info_memoizes_negatively
    (detail : String → RemoteOutcome) (cache : PodInfoCache) (pid : String)
    (hne : pid ≠ "") (hmiss : cache.entries.lookup pid = Option.none) :
    (get_pod_image_info detail cache (Option.some pid)).2.2 = true ∧
    (get_pod_image_info detail cache (Option.some pid)).2.1.entries.lookup pid =
      Option.some (get_pod_image_info detail cache (Option.some pid)).1 ∧
    ∀ detail2 : String → RemoteOutcome,
      get_pod_image_info detail2 (get_pod_image_info detail cache (Option.some pid)).2.1
          (Option.some pid) =
        ((get_pod_image_info detail cache (Option.some pid)).1,
         (get_pod_image_info detail cache (Option.some pid)).2.1, false) := by
  have hbeq : (pid == "") = false := by simp [hne]
  refine ⟨?_, ?_, ?_⟩
  · simp [get_pod_image_info, hbeq, hmiss]
  · simp [get_pod_image_info, hbeq, hmiss, assocSet_lookup_self]
  · intro detail2
    simp [get_pod_image_info, hbeq, hmiss, assocSet_lookup_self]

theorem pod_info_memoizes_negatively_witness :
    (get_pod_image_info (fun _ => .exc) ⟨[]⟩ (Option.some "pod-1")).2.2 = true ∧
    (get_pod_image_info (fun _ => .exc) ⟨[]⟩ (Option.some "pod-1")).2.1.entries.lookup "pod-1" =
      Option.some (get_pod_image_info (fun _ => .exc) ⟨[]⟩ (Option.some "pod-1")).1 ∧
    ∀ detail2 : String → RemoteOutcome,
      get_pod_image_info detail2
          (get_pod_image_info (fun _ => .exc) ⟨[]⟩ (Option.some "pod-1")).2.1
          (Option.some "pod-1") =
        ((get_pod_image_info (fun _ => .exc) ⟨[]⟩ (Option.some "pod-1")).1,
         (get_pod_image_info (fun _ => .exc) ⟨[]⟩ (Option.some "pod-1")).2.1, false) :=
  pod_info_memoizes_negatively (fun _ => .exc) ⟨[]⟩ "pod-1" (by decide) rfl

/-! ### Screenshot URL extraction (`case_runner.py:640-667`) -/

/-- The URL taken from one screenshot entry: `it.get("screenshot") or
it.get("original_screenshot")`, kept only when it is a string with
non-empty strip, and stripped (`case_runner.py:653-655`). -/
def screenshot_url_of (it : PyVal) : Option String :=
  match pyOr (pyGet it "screenshot") (pyGet it "original_screenshot") with
  | .str s => if pyStrip s == "" then Option.none else Option.some (pyStrip s)
  | _ => Option.none

/-- The loop over `screenshots.items()` with the `seen` set
(`case_runner.py:646-658`), non-dict entries skipped. -/
def extract_screenshot_urls_go : List (String × PyVal) → List String → List String
  | [], _ => []
  | (_, it) :: tl, seen =>
      if !pyIsDict it then extract_screenshot_urls_go tl seen
      else
        match screenshot_url_of it with
        | Option.some url =>
            if url ∈ seen then extract_screenshot_urls_go tl seen
            else url :: extract_screenshot_urls_go tl (url :: seen)
        | Option.none => extract_screenshot_urls_go tl seen

/-- The screenshot-URL list built by `_result_from_resp` from the
`ScreenShots` value (`case_runner.py:640-658`); non-dict values and the
empty dict contribute nothing. -/
def extract_screenshot_urls (screenshots : PyVal) : List String :=
  match screenshots with
  | .dict xs => if xs.isEmpty then [] else extract_screenshot_urls_go xs []
  | _ => []

/-- The raw URL sequence of a `ScreenShots` mapping in insertion order,
before deduplication (one URL per dict entry that yields one). -/
def screenshot_urls_raw (screenshots : PyVal) : List String :=
  match screenshots with
  | .dict xs => xs.filterMap (fun p => if pyIsDict p.2 then screenshot_url_of p.2 else Option.none)
  | _ => []

/-- Modelled from the spec's words for C8: remove duplicates from a
sequence, keeping the first occurrence of each element in order. -/
def dedupKeepFirst (l : List String) : List String :=
  l.foldl (fun acc x => if x ∈ acc then acc else acc ++ [x]) []

/-- The `seen`-set recursion underlying both sides. -/
def dedupSeen : List String → List String → List String
  | [], _ => []
  | x :: tl, seen =>
      if x ∈ seen then dedupSeen tl seen
      else x :: dedupSeen tl (x :: seen)

theorem dedupSeen_congr (l : List String) :
    ∀ s₁ s₂ : List String, (∀ y, y ∈ s₁ ↔ y ∈ s₂) → dedupSeen l s₁ = dedupSeen l s₂ := by
  induction l with
  | nil => intro s₁ s₂ _; rfl
  | cons x tl ih =>
      intro s₁ s₂ h
      by_cases hx : x ∈ s₁
      · simp [dedupSeen, hx, (h x).mp hx, ih s₁ s₂ h]
      · have hx₂ : x ∉ s₂ := fun hc => hx ((h x).mpr hc)
        have hcons : ∀ y, y ∈ x :: s₁ ↔ y ∈ x :: s₂ := by
          intro y; simp [h y]
        simp [dedupSeen, hx, hx₂, ih (x :: s₁) (x :: s₂) hcons]

theorem dedupKeepFirst_foldl (l : List String) :
    ∀ acc : List String,
      l.foldl (fun acc x => if x ∈ acc then acc else acc ++ [x]) acc =
        acc ++ dedupSeen l acc := by
  induction l with
  | nil => intro acc; simp [dedupSeen]
  | cons x tl ih =>
      intro acc
      by_cases hx : x ∈ acc
      · simp [dedupSeen, hx, ih acc]
      · have hmem : ∀ y, y ∈ acc ++ [x] ↔ y ∈ x :: acc := by
          intro y; simp [or_comm]
        simp only [List.foldl_cons, if_neg hx]
        rw [ih (acc ++ [x]), dedupSeen_congr tl (acc ++ [x]) (x :: acc) hmem]
        simp [dedupSeen, hx]

theorem extract_go_eq_dedupSeen (xs : List (String × PyVal)) :
    ∀ seen : List String,
      extract_screenshot_urls_go xs seen =
        dedupSeen (xs.filterMap
          (fun p => if pyIsDict p.2 then screenshot_url_of p.2 else Option.none)) seen := by
  induction xs with
  | nil => intro seen; rfl
  | cons hd tl ih =>
      intro seen
      obtain ⟨k, it⟩ := hd
      by_cases hd : pyIsDict it
      · cases hurl : screenshot_url_of it with
        | none => simp [extract_screenshot_urls_go, hd, hurl, ih, List.filterMap_cons]
        | some url =>
            by_cases hseen : url ∈ seen
            · simp [extract_screenshot_urls_go, hd, hurl, hseen, ih, List.filterMap_cons,
                dedupSeen]
            · simp [extract_screenshot_urls_go, hd, hurl, hseen, ih, List.filterMap_cons,
                dedupSeen]
      · simp [extract_screenshot_urls_go, hd, ih, List.filterMap_cons]

/-- C8: screenshot URL extraction is order-preserving and
deduplicating.  For every `ScreenShots` value, the extracted list is
the raw insertion-order URL sequence with duplicates removed keeping
first occurrences; in particular entries yielding `[a, b, a, c]`
produce `[a, b, c]`. -/
theorem screenshot_extraction_dedups_in_order (screenshots : PyVal) :
    extract_screenshot_urls screenshots = dedupKeepFirst (screenshot_urls_raw screenshots) ∧
    extract_screenshot_urls
        (.dict [("0", .dict [("screenshot", .str "a")]),
                ("1", .dict [("screenshot", .str "b")]),
                ("2", .dict [("screenshot", .str "a")]),
                ("3", .dict [("original_screenshot", .str "c")])]) = ["a", "b", "c"] := by
  constructor
  · cases screenshots with
    | dict xs =>
        cases hxs : xs with
        | nil => simp [extract_screenshot_urls, screenshot_urls_raw, dedupKeepFirst]
        | cons hd tl =>
            simp only [extract_screenshot_urls, screenshot_urls_raw, List.isEmpty_cons,
              Bool.false_eq_true, if_false, dedupKeepFirst]
            rw [extract_go_eq_dedupSeen, dedupKeepFirst_foldl]
            simp
    | none => rfl
    | bool b => rfl
    | int n => rfl
    | str s => rfl
    | list xs => rfl
  · rfl

/-! ### Verdict inference: string machinery (`case_runner.py:385-513`) -/

/-- Test that `needle` matches at the head of `s` (substring test at a position). -/
def matchesAt : List Char → List Char → Bool
  | [], _ => true
  | _ :: _, [] => false
  | n :: ntl, c :: ctl => n == c && matchesAt ntl ctl

/-- Helper for `str.rfind`: scan left to right remembering the last
position where the needle matches. -/
def rfindGo (needle : List Char) : List Char → Nat → Option Nat → Option Nat
  | [], p, best => if matchesAt needle [] then Option.some p else best
  | c :: tl, p, best =>
      rfindGo needle tl (p + 1) (if matchesAt needle (c :: tl) then Option.some p else best)

/-- Model of `str.rfind(needle)` (last occurrence; `None` models Python's -1). -/
def strRfind (hay needle : List Char) : Option Nat :=
  rfindGo needle hay 0 Option.none

/-- The scan loop of `_extract_json_object` (`case_runner.py:400-430`):
brace matching with a quote/escape-aware string state, accumulating the
slice; answers the slice once the depth returns to zero. -/
def extractGo : List Char → Nat → Bool → Bool → List Char → Option (List Char)
  | [], _, _, _, _ => Option.none
  | ch :: tl, depth, inStr, esc, acc =>
      if inStr then
        if esc then extractGo tl depth true false (acc ++ [ch])
        else if ch == '\\' then extractGo tl depth true true (acc ++ [ch])
        else if ch == '\"' then extractGo tl depth false false (acc ++ [ch])
        else extractGo tl depth true false (acc ++ [ch])
      else if ch == '\"' then extractGo tl depth true false (acc ++ [ch])
      else if ch == '\x7b' then extractGo tl (depth + 1) false false (acc ++ [ch])
      else if ch == '\x7d' then
        if depth == 1 then Option.some (acc ++ [ch])
        else extractGo tl (depth - 1) false false (acc ++ [ch])
      else extractGo tl depth false false (acc ++ [ch])

/-- Embedding of `_extract_json_object` (`case_runner.py:394-430`): `None` unless
`start` is in range and points at an opening brace. -/
def extract_json_object (text : List Char) (start : Nat) : Option (List Char) :=
  match (text.drop start).head? with
  | Option.some c =>
      if c == '\x7b' then extractGo (text.drop start) 0 false false [] else Option.none
  | Option.none => Option.none

/-! JSON parsing: a model of Python `json.loads` on the fragment the
runner feeds it (objects, arrays, strings with the common escapes,
integers, `true`/`false`/`null`).  Floats and `\uXXXX` escapes are
outside the modelled fragment and make the parse fail; no proved
theorem exercises them. -/

/-- JSON whitespace skipping. -/
def skipWs : List Char → List Char :=
  List.dropWhile (fun c => c == ' ' || c == '\t' || c == '\n' || c == '\x0d')

/-- Body of a JSON string literal after the opening quote, accumulating
decoded characters in reverse. -/
def parseStringBody : List Char → List Char → Option (List Char × List Char)
  | [], _ => Option.none
  | c :: tl, acc =>
      if c == '\"' then Option.some (acc.reverse, tl)
      else if c == '\\' then
        match tl with
        | [] => Option.none
        | e :: tl2 =>
            if e == '\"' then parseStringBody tl2 ('\"' :: acc)
            else if e == '\\' then parseStringBody tl2 ('\\' :: acc)
            else if e == '/' then parseStringBody tl2 ('/' :: acc)
            else if e == 'n' then parseStringBody tl2 ('\n' :: acc)
            else if e == 't' then parseStringBody tl2 ('\t' :: acc)
            else if e == 'r' then parseStringBody tl2 ('\x0d' :: acc)
            else if e == 'b' then parseStringBody tl2 ('\x08' :: acc)
            else if e == 'f' then parseStringBody tl2 ('\x0c' :: acc)
            else Option.none
      else parseStringBody tl (c :: acc)

/-- An integer JSON number (optional minus, digits; a following `.`,
`e` or `E` means a float, outside the modelled fragment). -/
def parseNumber (cs : List Char) : Option (PyVal × List Char) :=
  let (neg, cs1) := match cs with
    | '-' :: tl => (true, tl)
    | _ => (false, cs)
  let digits := cs1.takeWhile Char.isDigit
  let rest := cs1.dropWhile Char.isDigit
  if digits.isEmpty then Option.none
  else
    match rest with
    | '.' :: _ => Option.none
    | 'e' :: _ => Option.none
    | 'E' :: _ => Option.none
    | _ =>
        let n : Int := Int.ofNat (digitsToNat digits)
        Option.some (.int (if neg then -n else n), rest)

/-- What the single-fuel JSON parser is currently parsing: a value, the
members of an object (with the bindings accumulated so far), or the
elements of an array. -/
inductive ParseMode where
  | value
  | members (acc : List (String × PyVal))
  | elems (acc : List PyVal)

/-- Recursive-descent JSON parser, fuel-bounded so that the kernel can
evaluate it (a fuel of `length + 1` always suffices: each recursive
step consumes input).  Duplicate object keys overwrite in place, as
Python dicts do. -/
def parseJ : Nat → ParseMode → List Char → Option (PyVal × List Char)
  | 0, _, _ => Option.none
  | fuel + 1, ParseMode.value, cs =>
      match skipWs cs with
      | [] => Option.none
      | c :: tl =>
          if c == '\"' then
            match parseStringBody tl [] with
            | Option.some (s, rest) => Option.some (.str (String.mk s), rest)
            | Option.none => Option.none
          else if c == '\x7b' then
            match skipWs tl with
            | '\x7d' :: rest => Option.some (.dict [], rest)
            | _ => parseJ fuel (ParseMode.members []) tl
          else if c == '[' then
            match skipWs tl with
            | ']' :: rest => Option.some (.list [], rest)
            | _ => parseJ fuel (ParseMode.elems []) tl
          else if matchesAt ['t', 'r', 'u', 'e'] (c :: tl) then
            Option.some (.bool true, (c :: tl).drop 4)
          else if matchesAt ['f', 'a', 'l', 's', 'e'] (c :: tl) then
            Option.some (.bool false, (c :: tl).drop 5)
          else if matchesAt ['n', 'u', 'l', 'l'] (c :: tl) then
            Option.some (.none, (c :: tl).drop 4)
          else parseNumber (c :: tl)
  | fuel + 1, ParseMode.members acc, cs =>
      match skipWs cs with
      | '\"' :: tl =>
          match parseStringBody tl [] with
          | Option.some (key, rest) =>
              (match skipWs rest with
               | ':' :: rest2 =>
                   match parseJ fuel ParseMode.value rest2 with
                   | Option.some (v, rest3) =>
                       let acc2 := assocSet acc (String.mk key) v
                       (match skipWs rest3 with
                        | ',' :: rest4 => parseJ fuel (ParseMode.members acc2) rest4
                        | '\x7d' :: rest4 => Option.some (.dict acc2, rest4)
                        | _ => Option.none)
                   | Option.none => Option.none
               | _ => Option.none)
          | Option.none => Option.none
      | _ => Option.none
  | fuel + 1, ParseMode.elems acc, cs =>
      match parseJ fuel ParseMode.value cs with
      | Option.some (v, rest) =>
          (match skipWs rest with
           | ',' :: rest2 => parseJ fuel (ParseMode.elems (acc ++ [v])) rest2
           | ']' :: rest2 => Option.some (.list (acc ++ [v]), rest2)
           | _ => Option.none)
      | Option.none => Option.none

/-- Model of `json.loads` on the modelled fragment: a full parse of the string
with only trailing whitespace left over. -/
def jsonLoads (s : List Char) : Option PyVal :=
  match parseJ (s.length + 1) ParseMode.value s with
  | Option.some (v, rest) => if (skipWs rest).isEmpty then Option.some v else Option.none
  | Option.none => Option.none

/-- Model of the `needle in hay` substring test. -/
def containsSub (hay needle : List Char) : Bool :=
  (strRfind hay needle).isSome

/-- Fuel-bounded left-to-right `str.replace` (the fuel `len hay`
always suffices, each step consumes at least one character). -/
def replaceAllF : Nat → List Char → List Char → List Char → List Char
  | 0, cs, _, _ => cs
  | _ + 1, [], _, _ => []
  | fuel + 1, c :: tl, needle, repl =>
      if matchesAt needle (c :: tl) then
        repl ++ replaceAllF fuel ((c :: tl).drop needle.length) needle repl
      else c :: replaceAllF fuel tl needle repl

/-- Model of `hay.replace(needle, repl)` for non-empty needles. -/
def replaceAll (cs needle repl : List Char) : List Char :=
  if needle.isEmpty then cs else replaceAllF cs.length cs needle repl

/-- Embedding of `_try_parse_json_obj` (`case_runner.py:433-453`): direct parse of
the stripped text keeping only dict results; when the parse raises and
the text contains an escaped quote or newline, one level of
string-unescaping (`\"` to `"`, then `\\` to `\`) is undone and the
parse retried. -/
def try_parse_json_obj (text : String) : Option PyVal :=
  if pyStrip text == "" then Option.none
  else
    let s := (pyStrip text).data
    match jsonLoads s with
    | Option.some obj => if pyIsDict obj then Option.some obj else Option.none
    | Option.none =>
        if containsSub s ['\\', '\"'] || containsSub s ['\\', 'n'] then
          let s2 := replaceAll (replaceAll s ['\\', '\"'] ['\"']) ['\\', '\\'] ['\\']
          match jsonLoads s2 with
          | Option.some obj => if pyIsDict obj then Option.some obj else Option.none
          | Option.none => Option.none
        else Option.none

/-- Model of `str.lower()` (ASCII case folding, per character). -/
def pyLower (s : String) : String :=
  String.mk (s.data.map Char.toLower)

/-- Embedding of `_coerce_case_status` (`case_runner.py:385-391`). -/
def coerce_case_status : PyVal → Option String
  | .str s =>
      let v := pyLower (pyStrip s)
      if v == "pass" || v == "fail" || v == "skip" then Option.some v else Option.none
  | _ => Option.none

/-! ### The two localized regex searches (`case_runner.py:480,498`) -/

/-- Python regex word characters (`\w`): ASCII alphanumerics,
underscore; non-ASCII characters are treated as word characters, which
matches Python's unicode `\w` on the CJK text these payloads carry. -/
def isWordChar (c : Char) : Bool :=
  c.isAlphanum || c == '_' || decide (c.toNat ≥ 128)

/-- Boundary (`\b`) after a status word: end of text or a non-word
character. -/
def boundaryAfter : List Char → Bool
  | [] => true
  | c :: _ => !isWordChar c

/-- Case-insensitive match of an ASCII-lowercase needle. -/
def matchesAtCI : List Char → List Char → Bool
  | [], _ => true
  | _ :: _, [] => false
  | n :: ntl, c :: ctl => (c.toLower == n) && matchesAtCI ntl ctl

/-- Attempt of `\s*[:：]\s*(pass|fail|skip)\b` (case-insensitive) at a
position, returning the canonical lowercase group.  Whitespace and the
colon classes are disjoint, so greedy matching here is exact. -/
def markerTail (cs : List Char) : Option String :=
  match cs.dropWhile pyIsSpace with
  | c :: tl =>
      if c == ':' || c == '：' then
        let tl2 := tl.dropWhile pyIsSpace
        if matchesAtCI ['p', 'a', 's', 's'] tl2 && boundaryAfter (tl2.drop 4) then
          Option.some "pass"
        else if matchesAtCI ['f', 'a', 'i', 'l'] tl2 && boundaryAfter (tl2.drop 4) then
          Option.some "fail"
        else if matchesAtCI ['s', 'k', 'i', 'p'] tl2 && boundaryAfter (tl2.drop 4) then
          Option.some "skip"
        else Option.none
      else Option.none
  | [] => Option.none

/-- Model of `re.search` for `最终状态\s*[:：]\s*(pass|fail|skip)\b`
(`case_runner.py:480`): first start position at which the whole
pattern matches. -/
def markerSearchGo : List Char → Option String
  | [] => Option.none
  | c :: tl =>
      if matchesAt ['最', '终', '状', '态'] (c :: tl) then
        match markerTail ((c :: tl).drop 4) with
        | Option.some g => Option.some g
        | Option.none => markerSearchGo tl
      else markerSearchGo tl

/-- Attempt of `\s*[:：]\s*(.+)` at a position, for the
`失败原因` search; returns `some reasonOpt` when the regex matches,
where `reasonOpt` is `m.group(1).strip() or None`.  The backtracking
case in which `\s*` gives back blank characters so that `(.+)`
captures only whitespace strips to `None`. -/
def failReasonTail (cs : List Char) : Option (Option String) :=
  match cs.dropWhile pyIsSpace with
  | c :: tl =>
      if c == ':' || c == '：' then
        let rest := tl.dropWhile pyIsSpace
        match rest with
        | r :: _ =>
            let line := (r :: rest.tail).takeWhile (fun ch => ch != '\n')
            let stripped := stripChars line
            if stripped.isEmpty then Option.some Option.none
            else Option.some (Option.some (String.mk stripped))
        | [] =>
            if tl.any (fun ch => ch != '\n') then Option.some Option.none
            else Option.none
      else Option.none
  | [] => Option.none

/-- Model of `re.search` for `失败原因\s*[:：]\s*(.+)` (`case_runner.py:498`). -/
def failReasonSearchGo : List Char → Option (Option String)
  | [] => Option.none
  | c :: tl =>
      if matchesAt ['失', '败', '原', '因'] (c :: tl) then
        match failReasonTail ((c :: tl).drop 4) with
        | Option.some r => Option.some r
        | Option.none => failReasonSearchGo tl
      else failReasonSearchGo tl

/-! ### Verdict inference (`case_runner.py:456-513`) -/

/-- The `(status, reason)` pair read off a parsed self-report dict:
`_coerce_case_status(obj.get("status") or obj.get("Status"))` and the
stripped non-empty `reason`/`Reason` string
(`case_runner.py:458-461,493-496`). -/
def statusReasonOfObj (obj : PyVal) : Option String × Option String :=
  let st := coerce_case_status (pyOr (pyGet obj "status") (pyGet obj "Status"))
  let reason :=
    match pyOr (pyGet obj "reason") (pyGet obj "Reason") with
    | .str r => if pyStrip r == "" then Option.none else Option.some (pyStrip r)
    | _ => Option.none
  (st, reason)

/-- Embedding of `_infer_case_status_reason_from_struct_output`
(`case_runner.py:456-471`). -/
def infer_case_status_reason_from_struct_output (so : PyVal) :
    Option String × Option String :=
  match so with
  | .dict _ => statusReasonOfObj so
  | .str s =>
      if pyStrip s == "" then (Option.none, Option.none)
      else
        match try_parse_json_obj s with
        | Option.some obj => statusReasonOfObj obj
        | Option.none => (Option.none, Option.none)
  | _ => (Option.none, Option.none)

/-- The `{"status"` anchor, plain form. -/
def plainAnchor : List Char := ['\x7b', '\"', 's', 't', 'a', 't', 'u', 's', '\"']

/-- The `{\"status\"` anchor, string-escaped form. -/
def escAnchor : List Char :=
  ['\x7b', '\\', '\"', 's', 't', 'a', 't', 'u', 's', '\\', '\"']

/-- Embedding of `_infer_case_status_reason_from_content` (`case_runner.py:474-502`):
localized final-status marker first; then the last `{"status"`-anchored
(plain before escaped) JSON object, brace-extracted and parsed; then
the localized failure-reason marker. -/
def infer_case_status_reason_from_content (content : PyVal) :
    Option String × Option String :=
  match content with
  | .str s =>
      if pyStrip s == "" then (Option.none, Option.none)
      else
        let text := (pyStrip s).data
        match markerSearchGo text with
        | Option.some g => (coerce_case_status (.str g), Option.none)
        | Option.none =>
            let start :=
              match strRfind text plainAnchor with
              | Option.some p => Option.some p
              | Option.none => strRfind text escAnchor
            let viaJson : Option (Option String × Option String) :=
              match start with
              | Option.some p =>
                  match extract_json_object text p with
                  | Option.some blob =>
                      if (stripChars blob).isEmpty then Option.none
                      else
                        match try_parse_json_obj (String.mk blob) with
                        | Option.some obj => Option.some (statusReasonOfObj obj)
                        | Option.none => Option.none
                  | Option.none => Option.none
              | Option.none => Option.none
            match viaJson with
            | Option.some r => r
            | Option.none =>
                match failReasonSearchGo text with
                | Option.some reasonOpt => (Option.some "fail", reasonOpt)
                | Option.none => (Option.none, Option.none)
  | _ => (Option.none, Option.none)

/-- Embedding of `_infer_case_status_reason_from_result_payload`
(`case_runner.py:505-513`): the structured `StructOutput` self-report
wins when it resolves a status; otherwise the textual `Content` is
mined. -/
def infer_case_status_reason_from_result_payload (rp : PyVal) :
    Option String × Option String :=
  match rp with
  | .dict _ =>
      let sr := infer_case_status_reason_from_struct_output (pyGet rp "StructOutput")
      match sr.1 with
      | Option.some s => (Option.some s, sr.2)
      | Option.none => infer_case_status_reason_from_content (pyGet rp "Content")
  | _ => (Option.none, Option.none)

/-! ### `_result_from_resp`: status and reason (`case_runner.py:516-608`) -/

/-- The payload selection of `_result_from_resp`
(`case_runner.py:533-538`): the value under `Result` when that key
exists, else the response itself when it carries one of the known
payload keys, else nothing. -/
def result_payload_of (resp : PyVal) : PyVal :=
  match resp with
  | .dict _ =>
      if pyHasKey resp "Result" then pyGet resp "Result"
      else if pyHasKey resp "IsSuccess" || pyHasKey resp "Content" ||
              pyHasKey resp "StructOutput" || pyHasKey resp "ScreenShots" ||
              pyHasKey resp "Usage" then resp
      else .none
  | _ => .none

/-- The pre-inference status/reason of `_result_from_resp`
(`case_runner.py:529-600`): timeout short-circuit, top-level error
envelope, then the 7-value `IsSuccess` code table. -/
def result_base (resp : PyVal) (timeout : Bool) : String × String :=
  let rp := result_payload_of resp
  if timeout then ("fail", "等待任务完成超时")
    else
      let topErr := pyGet resp "Error"
      let s1 : String := if pyTruthy topErr then "fail" else "pass"
      let r1 : String :=
        if pyTruthy topErr then
          match topErr with
          | .dict _ => pyStr (pyOr (pyGet topErr "Message") topErr)
          | _ => pyStr topErr
        else ""
      match rp with
      | .none => if s1 == "pass" then ("fail", "GetAgentResult 返回为空") else (s1, r1)
      | .dict _ =>
          let code := coerce_is_success_code (pyGet rp "IsSuccess")
          let contentMsg : String :=
            match pyGet rp "Content" with
            | .str s => s
            | _ => ""
          (match code with
           | Option.none =>
               (if s1 == "pass" then "fail" else s1,
                if r1 == "" then "GetAgentResult IsSuccess 缺失/类型异常" else r1)
           | Option.some c =>
               if c == 0 then
                 (if s1 == "pass" then "fail" else s1,
                  if r1 == "" then "任务未完成（NOT_COMPLETED）" else r1)
               else if c == 1 || c == 3 then (s1, r1)
               else if c == 5 then
                 ("skip",
                  if r1 == "" then
                    (if contentMsg == "" then "用户取消（USER_CANCELLED）" else contentMsg)
                  else r1)
               else
                 ("fail",
                  if r1 == "" then
                    (if contentMsg != "" then contentMsg
                     else if c == 2 then "任务执行失败（EXEC_FAILED）"
                     else if c == 4 then "用户中断（USER_INTERRUPT）"
                     else if c == 6 then "未知错误（UNKNOWN_ERROR）"
                     else "任务失败（IsSuccess=" ++ toString c ++ "）")
                  else r1))
      | _ => ("fail", if r1 == "" then "GetAgentResult Result 类型异常" else r1)

/-- The structured self-report override/borrow of `_result_from_resp`
(`case_runner.py:602-608`): a fail/skip self-report downgrades a pass
(taking its reason when truthy); a truthy self-report reason is
borrowed by a fail/skip verdict whose reason is empty. -/
def apply_struct_inference (base : String × String)
    (inferred : Option String × Option String) : String × String :=
  let irsTruthy : Bool :=
    match inferred.2 with
    | Option.some r => r != ""
    | Option.none => false
  if base.1 == "pass" &&
      (inferred.1 == Option.some "fail" || inferred.1 == Option.some "skip") then
    ((inferred.1).getD "", if irsTruthy then (inferred.2).getD "" else base.2)
  else if (base.1 == "fail" || base.1 == "skip") && irsTruthy && base.2 == "" then
    (base.1, (inferred.2).getD "")
  else base

/-- The status/reason computation of `_result_from_resp`
(`case_runner.py:529-608`): the pre-inference pair, then the structured
self-report override.  The fields independent of the verdict (duration,
tokens, screenshots, pod metadata) are modelled separately. -/
def result_status_reason (resp : PyVal) (timeout : Bool) : String × String :=
  apply_struct_inference (result_base resp timeout)
    (infer_case_status_reason_from_result_payload (result_payload_of resp))

theorem apply_inference_keeps_non_pass (base : String × String)
    (inferred : Option String × Option String) (h : base.1 ≠ "pass") :
    (apply_struct_inference base inferred).1 = base.1 := by
  unfold apply_struct_inference
  have hb : (base.1 == "pass") = false := by simp [h]
  simp only [hb, Bool.false_and, Bool.if_false_left]
  split
  · simp_all
  · split <;> simp

theorem apply_inference_fixed (base : String × String)
    (inferred : Option String × Option String) (h1 : base.1 ≠ "pass")
    (h2 : base.2 ≠ "") :
    apply_struct_inference base inferred = base := by
  unfold apply_struct_inference
  have hb : (base.1 == "pass") = false := by simp [h1]
  have hr : (base.2 == "") = false := by simp [h2]
  simp [hb, hr]

theorem apply_inference_pass_no_report (base : String × String)
    (inferred : Option String × Option String) (h1 : base.1 = "pass")
    (hf : inferred.1 ≠ Option.some "fail") (hs : inferred.1 ≠ Option.some "skip") :
    apply_struct_inference base inferred = base := by
  unfold apply_struct_inference
  have hfb : (inferred.1 == Option.some "fail") = false := by simp [hf]
  have hsb : (inferred.1 == Option.some "skip") = false := by simp [hs]
  simp [h1, hfb, hsb]

theorem result_payload_of_wrapper (payload : PyVal) :
    result_payload_of (.dict [("Result", payload)]) = payload := by
  simp [result_payload_of, pyHasKey, pyGet, List.lookup]

theorem result_base_wrapper (payload : List (String × PyVal)) :
    result_base (.dict [("Result", .dict payload)]) false =
      (match coerce_is_success_code (pyGet (.dict payload) "IsSuccess") with
       | Option.none => ("fail", "GetAgentResult IsSuccess 缺失/类型异常")
       | Option.some c =>
           if c == 0 then ("fail", "任务未完成（NOT_COMPLETED）")
           else if c == 1 || c == 3 then ("pass", "")
           else if c == 5 then
             ("skip",
              if (match pyGet (.dict payload) "Content" with
                  | .str s => s
                  | _ => "") == "" then "用户取消（USER_CANCELLED）"
              else (match pyGet (.dict payload) "Content" with
                    | .str s => s
                    | _ => ""))
           else
             ("fail",
              if (match pyGet (.dict payload) "Content" with
                  | .str s => s
                  | _ => "") != "" then
                (match pyGet (.dict payload) "Content" with
                 | .str s => s
                 | _ => "")
              else if c == 2 then "任务执行失败（EXEC_FAILED）"
              else if c == 4 then "用户中断（USER_INTERRUPT）"
              else if c == 6 then "未知错误（UNKNOWN_ERROR）"
              else "任务失败（IsSuccess=" ++ toString c ++ "）")) := by
  rfl

/-- C2: for a non-timeout response wrapping a result payload dict (no
error envelope), the coerced `IsSuccess` code maps to the verdict as
the table states: 5 gives skip; 2, 4 and 6 give fail; 1 and 3 give
pass absent a contradicting structured self-report; 0 gives fail with
the not-completed reason; an absent or unparseable code gives fail
with the missing/malformed reason. -/
theorem success_code_verdict_table (payload : List (String × PyVal)) :
    (coerce_is_success_code (pyGet (.dict payload) "IsSuccess") = Option.some 5 →
      (result_status_reason (.dict [("Result", .dict payload)]) false).1 = "skip") ∧
    (∀ c : Int, coerce_is_success_code (pyGet (.dict payload) "IsSuccess") = Option.some c →
      c = 2 ∨ c = 4 ∨ c = 6 →
      (result_status_reason (.dict [("Result", .dict payload)]) false).1 = "fail") ∧
    (∀ c : Int, coerce_is_success_code (pyGet (.dict payload) "IsSuccess") = Option.some c →
      c = 1 ∨ c = 3 →
      (infer_case_status_reason_from_result_payload (.dict payload)).1 ≠ Option.some "fail" →
      (infer_case_status_reason_from_result_payload (.dict payload)).1 ≠ Option.some "skip" →
      (result_status_reason (.dict [("Result", .dict payload)]) false).1 = "pass") ∧
    (coerce_is_success_code (pyGet (.dict payload) "IsSuccess") = Option.some 0 →
      result_status_reason (.dict [("Result", .dict payload)]) false =
        ("fail", "任务未完成（NOT_COMPLETED）")) ∧
    (coerce_is_success_code (pyGet (.dict payload) "IsSuccess") = Option.none →
      result_status_reason (.dict [("Result", .dict payload)]) false =
        ("fail", "GetAgentResult IsSuccess 缺失/类型异常")) := by
  refine ⟨?_, ?_, ?_, ?_, ?_⟩
  · intro hcode
    rw [result_status_reason, result_payload_of_wrapper, result_base_wrapper, hcode]
    exact apply_inference_keeps_non_pass _ _ (by simp)
  · intro c hcode hc
    rw [result_status_reason, result_payload_of_wrapper, result_base_wrapper, hcode]
    rcases hc with h | h | h <;> subst h <;>
      exact apply_inference_keeps_non_pass _ _ (by simp)
  · intro c hcode hc hf hs
    rw [result_status_reason, result_payload_of_wrapper, result_base_wrapper, hcode]
    rcases hc with h | h <;> subst h <;>
      (rw [apply_inference_pass_no_report _ _ rfl hf hs]; simp)
  · intro hcode
    rw [result_status_reason, result_payload_of_wrapper, result_base_wrapper, hcode]
    exact apply_inference_fixed _ _ (by simp) (by simp)
  · intro hcode
    rw [result_status_reason, result_payload_of_wrapper, result_base_wrapper, hcode]
    exact apply_inference_fixed _ _ (by simp) (by simp)

theorem success_code_verdict_table_witness :
    (result_status_reason (.dict [("Result", .dict [("IsSuccess", .int 5)])]) false).1 =
      "skip" ∧
    (result_status_reason (.dict [("Result", .dict [("IsSuccess", .int 2)])]) false).1 =
      "fail" ∧
    (result_status_reason (.dict [("Result", .dict [("IsSuccess", .int 1)])]) false).1 =
      "pass" ∧
    result_status_reason (.dict [("Result", .dict [("IsSuccess", .int 0)])]) false =
      ("fail", "任务未完成（NOT_COMPLETED）") ∧
    result_status_reason (.dict [("Result", .dict [("IsSuccess", .str "zzz")])]) false =
      ("fail", "GetAgentResult IsSuccess 缺失/类型异常") :=
  ⟨(success_code_verdict_table [("IsSuccess", .int 5)]).1 rfl,
   (success_code_verdict_table [("IsSuccess", .int 2)]).2.1 2 rfl (Or.inl rfl),
   (success_code_verdict_table [("IsSuccess", .int 1)]).2.2.1 1 rfl (Or.inl rfl)
     (by decide) (by decide),
   (success_code_verdict_table [("IsSuccess", .int 0)]).2.2.2.1 rfl,
   (success_code_verdict_table [("IsSuccess", .str "zzz")]).2.2.2.2 rfl⟩

/-- C4 counterexample: with a truthy top-level error envelope and
coerced success code 5, the verdict status is `skip`, not `fail` — the
code-5 branch overwrites the envelope's fail status unconditionally
(`case_runner.py:581`), keeping only the envelope's message as reason. -/
theorem error_envelope_code5_counterexample :
    result_status_reason
        (.dict [("Error", .dict [("Message", .str "boom")]),
                ("Result", .dict [("IsSuccess", .int 5)])]) false = ("skip", "boom") ∧
    ("skip", "boom") ≠ (("fail" : String), ("boom" : String)) :=
  ⟨rfl, by decide⟩

/-- C4 amended: a truthy top-level error envelope with a non-empty
message forces the verdict reason to that message and the status to
`fail` for every coerced success code except 5, for which the code
mapping overrides the status back to `skip` (the message is still kept
as the reason). -/
theorem error_envelope_override (m : String) (hm : m ≠ "")
    (payload : List (String × PyVal)) :
    result_status_reason
        (.dict [("Error", .dict [("Message", .str m)]), ("Result", .dict payload)])
        false =
      ((match coerce_is_success_code (pyGet (.dict payload) "IsSuccess") with
        | Option.some c => if c == 5 then "skip" else "fail"
        | Option.none => "fail"), m) := by
  have hms : (m == "") = false := by simp [hm]
  have hrp : result_payload_of
      (.dict [("Error", .dict [("Message", .str m)]), ("Result", .dict payload)]) =
      .dict payload := by
    simp [result_payload_of, pyHasKey, pyGet, List.lookup]
  have htop : pyGet
      (.dict [("Error", .dict [("Message", .str m)]), ("Result", .dict payload)])
      "Error" = .dict [("Message", .str m)] := by
    simp [pyGet, List.lookup]
  have hbase : result_base
      (.dict [("Error", .dict [("Message", .str m)]), ("Result", .dict payload)])
      false =
      ((match coerce_is_success_code (pyGet (.dict payload) "IsSuccess") with
        | Option.some c => if c == 5 then "skip" else "fail"
        | Option.none => "fail"), m) := by
    rw [result_base]
    simp only [hrp, htop]
    generalize coerce_is_success_code (pyGet (.dict payload) "IsSuccess") = code
    cases code with
    | none => simp [pyGet, List.lookup, pyOr, pyTruthy, pyStr, hm, hms]
    | some c =>
        by_cases h0 : c = 0
        · subst h0; simp [pyGet, List.lookup, pyOr, pyTruthy, pyStr, hm, hms]
        · by_cases h1 : c = 1
          · subst h1; simp [pyGet, List.lookup, pyOr, pyTruthy, pyStr, hm, hms]
          · by_cases h3 : c = 3
            · subst h3; simp [pyGet, List.lookup, pyOr, pyTruthy, pyStr, hm, hms]
            · by_cases h5 : c = 5
              · subst h5; simp [pyGet, List.lookup, pyOr, pyTruthy, pyStr, hm, hms]
              · simp [pyGet, List.lookup, pyOr, pyTruthy, pyStr, hm, hms,
                  h0, h1, h3, h5]
  rw [result_status_reason, hrp, hbase]
  apply apply_inference_fixed
  · cases hcode : coerce_is_success_code (pyGet (.dict payload) "IsSuccess") with
    | none => show ("fail" : String) ≠ "pass"; decide
    | some c =>
        by_cases h5 : c = 5
        · subst h5
          show ("skip" : String) ≠ "pass"
          decide
        · have h5b : (c == 5) = false := by simp [h5]
          simp only [h5b, Bool.false_eq_true, if_false]
          show ("fail" : String) ≠ "pass"
          decide
  · simpa using hm

theorem error_envelope_override_witness :
    result_status_reason
        (.dict [("Error", .dict [("Message", .str "boom")]),
                ("Result", .dict [("IsSuccess", .int 2)])]) false =
      ((match coerce_is_success_code
            (pyGet (.dict [("IsSuccess", PyVal.int 2)]) "IsSuccess") with
        | Option.some c => if c == 5 then "skip" else "fail"
        | Option.none => "fail"), "boom") :=
  error_envelope_override "boom" (by decide) [("IsSuccess", .int 2)]

/-! ### C3 infrastructure: the plain embedded self-report -/

/-- A character that cannot interfere with JSON string scanning, brace
matching or anchor search: not a quote, backslash or brace. -/
def jsonPlainChar (c : Char) : Bool :=
  c != '\"' && c != '\\' && c != '\x7b' && c != '\x7d'

theorem jsonPlainChar_split (x : Char) (hx : jsonPlainChar x = true) :
    (x == '\"') = false ∧ (x == '\\') = false ∧ (x == '\x7b') = false ∧
      (x == '\x7d') = false := by
  simp only [jsonPlainChar, Bool.and_eq_true, bne_iff_ne, ne_eq] at hx
  refine ⟨?_, ?_, ?_, ?_⟩
  · simp [hx.1.1.1]
  · simp [hx.1.1.2]
  · simp [hx.1.2]
  · simp [hx.2]

theorem parseStringBody_clean (X : List Char)
    (h : ∀ c ∈ X, jsonPlainChar c = true) :
    ∀ (rest acc : List Char),
      parseStringBody (X ++ '\"' :: rest) acc = Option.some (acc.reverse ++ X, rest) := by
  induction X with
  | nil =>
      intro rest acc
      simp only [List.nil_append, List.append_nil]
      rw [parseStringBody.eq_def]
      simp
  | cons x tl ih =>
      intro rest acc
      obtain ⟨hq, hb, -, -⟩ := jsonPlainChar_split x (h x (List.mem_cons_self x tl))
      have htl : ∀ c ∈ tl, jsonPlainChar c = true := fun c hc => h c (List.mem_cons_of_mem x hc)
      rw [List.cons_append]
      rw [show parseStringBody (x :: (tl ++ '\"' :: rest)) acc =
            parseStringBody (tl ++ '\"' :: rest) (x :: acc) from by
        rw [parseStringBody.eq_def]
        simp [hq, hb]]
      rw [ih htl rest (x :: acc)]
      simp

theorem extractGo_clean (X : List Char)
    (h : ∀ c ∈ X, jsonPlainChar c = true) :
    ∀ (tl acc : List Char) (depth : Nat),
      extractGo (X ++ tl) depth true false acc = extractGo tl depth true false (acc ++ X) := by
  induction X with
  | nil => intro tl acc depth; simp
  | cons x xtl ih =>
      intro tl acc depth
      obtain ⟨hq, hb, -, -⟩ := jsonPlainChar_split x (h x (List.mem_cons_self x xtl))
      have htl : ∀ c ∈ xtl, jsonPlainChar c = true :=
        fun c hc => h c (List.mem_cons_of_mem x hc)
      rw [List.cons_append]
      rw [show extractGo (x :: (xtl ++ tl)) depth true false acc =
            extractGo (xtl ++ tl) depth true false (acc ++ [x]) from by
        rw [extractGo.eq_def]
        simp [hq, hb]]
      rw [ih htl tl (acc ++ [x]) depth]
      simp

theorem matchesAt_append_self (needle : List Char) :
    ∀ rest : List Char, matchesAt needle (needle ++ rest) = true := by
  induction needle with
  | nil => intro rest; rfl
  | cons n tl ih => intro rest; simp [matchesAt, ih]

theorem rfindGo_no_match (needle : List Char) (hnil : matchesAt needle [] = false) :
    ∀ (s : List Char), (∀ k, matchesAt needle (s.drop k) = false) →
      ∀ (p : Nat) (best : Option Nat), rfindGo needle s p best = best := by
  intro s
  induction s with
  | nil => intro _ p best; simp [rfindGo, hnil]
  | cons c tl ih =>
      intro h p best
      have h0 := h 0
      simp only [List.drop_zero] at h0
      have htl : ∀ k, matchesAt needle (tl.drop k) = false := fun k => h (k + 1)
      simp [rfindGo, h0, ih htl]

theorem rfindGo_found (needle : List Char) (hnil : matchesAt needle [] = false)
    (a : Char) (s0 : List Char) (hmatch : matchesAt needle (a :: s0) = true)
    (hafter : ∀ k, matchesAt needle (s0.drop k) = false) :
    ∀ (pre : List Char) (p : Nat) (best : Option Nat),
      rfindGo needle (pre ++ a :: s0) p best = Option.some (p + pre.length) := by
  intro pre
  induction pre with
  | nil =>
      intro p best
      simp [rfindGo, hmatch, rfindGo_no_match needle hnil s0 hafter]
  | cons b btl ih =>
      intro p best
      rw [List.cons_append]
      rw [show rfindGo needle (b :: (btl ++ a :: s0)) p best =
            rfindGo needle (btl ++ a :: s0) (p + 1)
              (if matchesAt needle (b :: (btl ++ a :: s0)) = true then Option.some p
               else best) from rfl]
      rw [ih (p + 1)]
      congr 1
      simp [List.length_cons]
      omega

/-- The characters of the embedded self-report up to and including the
opening quote of the reason value. -/
def blobPrefix (stw : String) : List Char :=
  plainAnchor ++ [':', '\"'] ++ stw.data ++
    ['\"', ',', '\"', 'r', 'e', 'a', 's', 'o', 'n', '\"', ':', '\"']

/-- Characters of `\x7b"status":"<stw>","reason":"<X>"\x7d`: the plain
textual self-report embedded in a content field. -/
def selfReportBlob (stw : String) (X : List Char) : List Char :=
  blobPrefix stw ++ X ++ ['\"', '\x7d']

example (f : Nat) (l : List Char) :
    parseJ (f + 1) ParseMode.value ('t' :: 'r' :: 'u' :: 'e' :: l) =
      Option.some (.bool true, l) := by
  rw [parseJ.eq_def]
  simp [skipWs, matchesAt]

example (f : Nat) (stw : String) (X : List Char) :
    parseJ (f + 2) ParseMode.value (selfReportBlob stw X) =
      parseJ (f + 1) (ParseMode.members [])
        ('\"' :: ('s' :: 't' :: 'a' :: 't' :: 'u' :: 's' :: '\"' :: ':' :: '\"' ::
          (stw.data ++ ('\"' :: ',' :: '\"' :: 'r' :: 'e' :: 'a' :: 's' :: 'o' :: 'n' :: '\"' :: ':' :: '\"' ::
            (X ++ ['\"', '\x7d']))))) := by
  simp only [selfReportBlob, blobPrefix, plainAnchor, List.append_assoc, List.cons_append,
    List.nil_append]
  rw [parseJ.eq_def]
  simp [skipWs]

theorem parseJ_value_string (f : Nat) (V rest : List Char)
    (hV : ∀ c ∈ V, jsonPlainChar c = true) :
    parseJ (f + 1) ParseMode.value ('\"' :: (V ++ '\"' :: rest)) =
      Option.some (.str (String.mk V), rest) := by
  rw [parseJ.eq_def]
  simp [skipWs]
  rw [parseStringBody_clean V hV]
  simp

theorem parseJ_member_comma (f : Nat) (acc : List (String × PyVal)) (K V rest : List Char)
    (hK : ∀ c ∈ K, jsonPlainChar c = true) (hV : ∀ c ∈ V, jsonPlainChar c = true) :
    parseJ (f + 2) (ParseMode.members acc)
        ('\"' :: (K ++ '\"' :: ':' :: '\"' :: (V ++ '\"' :: ',' :: rest))) =
      parseJ (f + 1)
        (ParseMode.members (assocSet acc (String.mk K) (.str (String.mk V)))) rest := by
  rw [parseJ.eq_def]
  simp [skipWs]
  rw [parseStringBody_clean K hK]
  simp [skipWs]
  rw [parseJ_value_string f V (',' :: rest) hV]
  simp [skipWs]

theorem parseJ_member_close (f : Nat) (acc : List (String × PyVal)) (K V rest : List Char)
    (hK : ∀ c ∈ K, jsonPlainChar c = true) (hV : ∀ c ∈ V, jsonPlainChar c = true) :
    parseJ (f + 2) (ParseMode.members acc)
        ('\"' :: (K ++ '\"' :: ':' :: '\"' :: (V ++ '\"' :: '\x7d' :: rest))) =
      Option.some (.dict (assocSet acc (String.mk K) (.str (String.mk V))), rest) := by
  rw [parseJ.eq_def]
  simp [skipWs]
  rw [parseStringBody_clean K hK]
  simp [skipWs]
  rw [parseJ_value_string f V ('\x7d' :: rest) hV]
  simp [skipWs]

theorem parseJ_value_obj_step (f : Nat) (tl : List Char) :
    parseJ (f + 1) ParseMode.value ('\x7b' :: '\"' :: tl) =
      parseJ f (ParseMode.members []) ('\"' :: tl) := by
  rw [parseJ.eq_def]
  simp [skipWs]

theorem selfReportBlob_shape (stw : String) (X : List Char) :
    selfReportBlob stw X =
      '\x7b' :: '\"' :: (['s', 't', 'a', 't', 'u', 's'] ++ '\"' :: ':' :: '\"' ::
        (stw.data ++ '\"' :: ',' ::
          ('\"' :: (['r', 'e', 'a', 's', 'o', 'n'] ++ '\"' :: ':' :: '\"' ::
            (X ++ '\"' :: '\x7d' :: []))))) := by
  simp [selfReportBlob, blobPrefix, plainAnchor]

theorem parseJ_selfReportBlob (f : Nat) (stw : String)
    (hstw : ∀ c ∈ stw.data, jsonPlainChar c = true)
    (X : List Char) (hX : ∀ c ∈ X, jsonPlainChar c = true) :
    parseJ (f + 4) ParseMode.value (selfReportBlob stw X) =
      Option.some (.dict [("status", .str stw), ("reason", .str (String.mk X))], []) := by
  rw [selfReportBlob_shape]
  rw [show f + 4 = (f + 3) + 1 from rfl, parseJ_value_obj_step (f + 3)]
  rw [show f + 3 = (f + 1) + 2 from rfl,
    parseJ_member_comma (f + 1) [] ['s', 't', 'a', 't', 'u', 's'] stw.data _
      (by decide) hstw]
  rw [show f + 1 + 1 = f + 2 from rfl,
    parseJ_member_close f _ ['r', 'e', 'a', 's', 'o', 'n'] X [] (by decide) hX]
  simp [assocSet]

theorem selfReportBlob_anchor (stw : String) (X : List Char) :
    selfReportBlob stw X =
      plainAnchor ++ (':' :: '\"' :: (stw.data ++ '\"' :: ',' ::
        ('\"' :: (['r', 'e', 'a', 's', 'o', 'n'] ++ '\"' :: ':' :: '\"' ::
          (X ++ '\"' :: '\x7d' :: []))))) := by
  simp [selfReportBlob, blobPrefix, plainAnchor]

theorem no_brace_no_match (s : List Char)
    (h : ∀ c ∈ s, (c == '\x7b') = false) :
    ∀ k, matchesAt plainAnchor (s.drop k) = false := by
  intro k
  cases hd : s.drop k with
  | nil => rfl
  | cons c tl =>
      have hc : c ∈ s := by
        have : c ∈ s.drop k := by rw [hd]; exact List.mem_cons_self c tl
        exact List.drop_subset k s this
      have hne : c ≠ '\x7b' := by simpa using h c hc
      have h2 : ('\x7b' == c) = false := by simp [Ne.symm hne]
      simp [plainAnchor, matchesAt, h2]

theorem selfReportBlob_tail_no_brace (stw : String) (X : List Char)
    (hstw : ∀ c ∈ stw.data, jsonPlainChar c = true)
    (hX : ∀ c ∈ X, jsonPlainChar c = true) :
    ∀ c ∈ ('\"' :: (['s', 't', 'a', 't', 'u', 's'] ++ '\"' :: ':' :: '\"' ::
        (stw.data ++ '\"' :: ',' ::
          ('\"' :: (['r', 'e', 'a', 's', 'o', 'n'] ++ '\"' :: ':' :: '\"' ::
            (X ++ '\"' :: '\x7d' :: [])))))), (c == '\x7b') = false := by
  have hgrp : ('\"' :: (['s', 't', 'a', 't', 'u', 's'] ++ '\"' :: ':' :: '\"' ::
        (stw.data ++ '\"' :: ',' ::
          ('\"' :: (['r', 'e', 'a', 's', 'o', 'n'] ++ '\"' :: ':' :: '\"' ::
            (X ++ '\"' :: '\x7d' :: [])))))) =
      ['\"', 's', 't', 'a', 't', 'u', 's', '\"', ':', '\"'] ++
        (stw.data ++ (['\"', ',', '\"', 'r', 'e', 'a', 's', 'o', 'n', '\"', ':', '\"'] ++
          (X ++ ['\"', '\x7d']))) := by
    simp
  intro c hc
  rw [hgrp] at hc
  simp only [List.mem_append] at hc
  have hA : ∀ x ∈ ['\"', 's', 't', 'a', 't', 'u', 's', '\"', ':', '\"'],
      (x == '\x7b') = false := by decide
  have hB : ∀ x ∈ ['\"', ',', '\"', 'r', 'e', 'a', 's', 'o', 'n', '\"', ':', '\"'],
      (x == '\x7b') = false := by decide
  have hC : ∀ x ∈ ['\"', '\x7d'], (x == '\x7b') = false := by decide
  rcases hc with h | h | h | h | h
  · exact hA c h
  · exact (jsonPlainChar_split c (hstw c h)).2.2.1
  · exact hB c h
  · exact (jsonPlainChar_split c (hX c h)).2.2.1
  · exact hC c h

theorem strRfind_selfReportBlob (stw : String) (X pre : List Char)
    (hstw : ∀ c ∈ stw.data, jsonPlainChar c = true)
    (hX : ∀ c ∈ X, jsonPlainChar c = true) :
    strRfind (pre ++ selfReportBlob stw X) plainAnchor = Option.some pre.length := by
  have hshape := selfReportBlob_shape stw X
  have hmatch : matchesAt plainAnchor (selfReportBlob stw X) = true := by
    rw [selfReportBlob_anchor]
    exact matchesAt_append_self plainAnchor _
  have htail := selfReportBlob_tail_no_brace stw X hstw hX
  have hafter := no_brace_no_match _ htail
  rw [strRfind.eq_def]
  conv_lhs => rw [hshape]
  rw [show ('\x7b' :: '\"' :: (['s', 't', 'a', 't', 'u', 's'] ++ '\"' :: ':' :: '\"' ::
        (stw.data ++ '\"' :: ',' ::
          ('\"' :: (['r', 'e', 'a', 's', 'o', 'n'] ++ '\"' :: ':' :: '\"' ::
            (X ++ '\"' :: '\x7d' :: [])))))) =
      '\x7b' :: ('\"' :: (['s', 't', 'a', 't', 'u', 's'] ++ '\"' :: ':' :: '\"' ::
        (stw.data ++ '\"' :: ',' ::
          ('\"' :: (['r', 'e', 'a', 's', 'o', 'n'] ++ '\"' :: ':' :: '\"' ::
            (X ++ '\"' :: '\x7d' :: [])))))) from rfl]
  rw [rfindGo_found plainAnchor rfl '\x7b' _ (by rw [← hshape]; exact hmatch) hafter pre 0
    Option.none]
  simp

theorem extractGo_quote_in (tl acc : List Char) (d : Nat) :
    extractGo ('\"' :: tl) d false false acc = extractGo tl d true false (acc ++ ['\"']) := by
  rw [extractGo.eq_def]
  simp

theorem extractGo_quote_out (tl acc : List Char) (d : Nat) :
    extractGo ('\"' :: tl) d true false acc = extractGo tl d false false (acc ++ ['\"']) := by
  rw [extractGo.eq_def]
  simp

theorem extractGo_open (tl acc : List Char) (d : Nat) :
    extractGo ('\x7b' :: tl) d false false acc =
      extractGo tl (d + 1) false false (acc ++ ['\x7b']) := by
  rw [extractGo.eq_def]
  simp

theorem extractGo_close_one (tl acc : List Char) :
    extractGo ('\x7d' :: tl) 1 false false acc = Option.some (acc ++ ['\x7d']) := by
  rw [extractGo.eq_def]
  simp

theorem extractGo_plain_out (c : Char) (hq : (c == '\"') = false)
    (hopen : (c == '\x7b') = false) (hclose : (c == '\x7d') = false)
    (tl acc : List Char) (d : Nat) :
    extractGo (c :: tl) d false false acc = extractGo tl d false false (acc ++ [c]) := by
  rw [extractGo.eq_def]
  simp [hq, hopen, hclose]

theorem extract_selfReportBlob (stw : String) (X : List Char)
    (hstw : ∀ c ∈ stw.data, jsonPlainChar c = true)
    (hX : ∀ c ∈ X, jsonPlainChar c = true) :
    extractGo (selfReportBlob stw X) 0 false false [] =
      Option.some (selfReportBlob stw X) := by
  conv_lhs => rw [selfReportBlob_shape]
  rw [extractGo_open, extractGo_quote_in, extractGo_clean _ (by decide),
    extractGo_quote_out, extractGo_plain_out ':' rfl rfl rfl, extractGo_quote_in,
    extractGo_clean _ hstw, extractGo_quote_out, extractGo_plain_out ',' rfl rfl rfl,
    extractGo_quote_in, extractGo_clean _ (by decide), extractGo_quote_out,
    extractGo_plain_out ':' rfl rfl rfl, extractGo_quote_in, extractGo_clean _ hX,
    extractGo_quote_out, extractGo_close_one]
  rw [selfReportBlob_shape]
  simp

theorem extract_json_object_selfReportBlob (stw : String) (X pre : List Char)
    (hstw : ∀ c ∈ stw.data, jsonPlainChar c = true)
    (hX : ∀ c ∈ X, jsonPlainChar c = true) :
    extract_json_object (pre ++ selfReportBlob stw X) pre.length =
      Option.some (selfReportBlob stw X) := by
  rw [extract_json_object, List.drop_left]
  rw [show (selfReportBlob stw X).head? = Option.some '\x7b' from by
    rw [selfReportBlob_shape]; rfl]
  simp only [show (('\x7b' : Char) == '\x7b') = true from rfl, if_true]
  exact extract_selfReportBlob stw X hstw hX

theorem dropWhile_of_head_not {p : Char → Bool} (l : List Char)
    (h : ∀ c, l.head? = Option.some c → p c = false) : l.dropWhile p = l := by
  cases l with
  | nil => rfl
  | cons a tl =>
      rw [List.dropWhile_cons, h a rfl]
      simp

theorem stripChars_selfReportBlob (stw : String) (X : List Char) :
    stripChars (selfReportBlob stw X) = selfReportBlob stw X := by
  unfold stripChars
  have h1 : (selfReportBlob stw X).dropWhile pyIsSpace = selfReportBlob stw X := by
    apply dropWhile_of_head_not
    intro c hc
    rw [selfReportBlob_shape] at hc
    simp at hc
    subst hc
    rfl
  rw [h1]
  have hlast : (selfReportBlob stw X).reverse.head? = Option.some '\x7d' := by
    rw [List.head?_reverse]
    rw [show selfReportBlob stw X = (blobPrefix stw ++ X ++ ['\"']) ++ ['\x7d'] from by
      simp [selfReportBlob]]
    simp
  have h2 : (selfReportBlob stw X).reverse.dropWhile pyIsSpace =
      (selfReportBlob stw X).reverse := by
    apply dropWhile_of_head_not
    intro c hc
    rw [hlast] at hc
    simp at hc
    subst hc
    rfl
  rw [h2, List.reverse_reverse]

theorem selfReportBlob_length (stw : String) (X : List Char) :
    (selfReportBlob stw X).length = stw.data.length + X.length + 25 := by
  simp [selfReportBlob, blobPrefix, plainAnchor]
  omega

theorem jsonLoads_selfReportBlob (stw : String)
    (hstw : ∀ c ∈ stw.data, jsonPlainChar c = true)
    (X : List Char) (hX : ∀ c ∈ X, jsonPlainChar c = true) :
    jsonLoads (selfReportBlob stw X) =
      Option.some (.dict [("status", .str stw), ("reason", .str (String.mk X))]) := by
  obtain ⟨g, hg⟩ : ∃ g, (selfReportBlob stw X).length + 1 = g + 4 :=
    ⟨(selfReportBlob stw X).length - 3, by rw [selfReportBlob_length]; omega⟩
  rw [jsonLoads, hg, parseJ_selfReportBlob g stw hstw X hX]
  rfl

theorem try_parse_selfReportBlob (stw : String)
    (hstw : ∀ c ∈ stw.data, jsonPlainChar c = true)
    (X : List Char) (hX : ∀ c ∈ X, jsonPlainChar c = true) :
    try_parse_json_obj (String.mk (selfReportBlob stw X)) =
      Option.some (.dict [("status", .str stw), ("reason", .str (String.mk X))]) := by
  have hstrip : pyStrip (String.mk (selfReportBlob stw X)) =
      String.mk (selfReportBlob stw X) := by
    unfold pyStrip
    rw [show (String.mk (selfReportBlob stw X)).data = selfReportBlob stw X from rfl,
      stripChars_selfReportBlob]
  have hne : (String.mk (selfReportBlob stw X) == "") = false := by
    rw [selfReportBlob_shape]
    rfl
  rw [try_parse_json_obj, hstrip, hne]
  simp only [Bool.false_eq_true, if_false]
  rw [jsonLoads_selfReportBlob stw hstw X hX]
  rfl

theorem stringMk_beq_empty_false (l : List Char) (h : l ≠ []) :
    (String.mk l == "") = false := by
  cases l with
  | nil => exact absurd rfl h
  | cons a tl => rfl

theorem infer_content_selfReport (stw : String) (X pre : List Char)
    (hstw : ∀ c ∈ stw.data, jsonPlainChar c = true)
    (hX : ∀ c ∈ X, jsonPlainChar c = true)
    (hstrip : stripChars (pre ++ selfReportBlob stw X) = pre ++ selfReportBlob stw X)
    (hmarker : markerSearchGo (pre ++ selfReportBlob stw X) = Option.none) :
    infer_case_status_reason_from_content
        (.str (String.mk (pre ++ selfReportBlob stw X))) =
      statusReasonOfObj (.dict [("status", .str stw), ("reason", .str (String.mk X))]) := by
  have hne : (pre ++ selfReportBlob stw X) ≠ [] := by
    rw [selfReportBlob_shape]
    simp
  have hstripS : pyStrip (String.mk (pre ++ selfReportBlob stw X)) =
      String.mk (pre ++ selfReportBlob stw X) := by
    unfold pyStrip
    rw [show (String.mk (pre ++ selfReportBlob stw X)).data =
        pre ++ selfReportBlob stw X from rfl, hstrip]
  rw [infer_case_status_reason_from_content, hstripS,
    stringMk_beq_empty_false _ hne]
  simp only [Bool.false_eq_true, if_false]
  have hext := extract_json_object_selfReportBlob stw X pre hstw hX
  have hisE : (selfReportBlob stw X).isEmpty = false := by
    rw [selfReportBlob_shape]
    rfl
  have htp := try_parse_selfReportBlob stw hstw X hX
  simp only [hmarker, strRfind_selfReportBlob stw X pre hstw hX, hext,
    stripChars_selfReportBlob, hisE, Bool.false_eq_true, if_false, htp]

theorem statusReasonOfObj_selfReport (stw : String) (hstw : stw = "fail" ∨ stw = "skip")
    (X : List Char) (hXne : X ≠ []) (hXstrip : stripChars X = X) :
    statusReasonOfObj (.dict [("status", .str stw), ("reason", .str (String.mk X))]) =
      (Option.some stw, Option.some (String.mk X)) := by
  have hcf : coerce_case_status (.str "fail") = Option.some "fail" := by decide
  have hcs : coerce_case_status (.str "skip") = Option.some "skip" := by decide
  have hXstrip' : pyStrip (String.mk X) = String.mk X := by
    unfold pyStrip
    rw [show (String.mk X).data = X from rfl, hXstrip]
  have hne2 : ¬(String.mk X = "") := by
    intro hh
    exact hXne (by simpa using congrArg String.data hh)
  rcases hstw with h | h <;> subst h <;>
    simp [statusReasonOfObj, pyGet, List.lookup, pyOr, pyTruthy, hcf, hcs, hne2, hXstrip']

theorem infer_payload_selfReport (stw : String) (X pre : List Char) (v : PyVal)
    (hstw : ∀ ch ∈ stw.data, jsonPlainChar ch = true)
    (hX : ∀ ch ∈ X, jsonPlainChar ch = true)
    (hstrip : stripChars (pre ++ selfReportBlob stw X) = pre ++ selfReportBlob stw X)
    (hmarker : markerSearchGo (pre ++ selfReportBlob stw X) = Option.none) :
    infer_case_status_reason_from_result_payload
        (.dict [("IsSuccess", v),
                ("Content", .str (String.mk (pre ++ selfReportBlob stw X)))]) =
      statusReasonOfObj (.dict [("status", .str stw), ("reason", .str (String.mk X))]) := by
  rw [infer_case_status_reason_from_result_payload.eq_def]
  have hso : pyGet (.dict [("IsSuccess", v),
      ("Content", .str (String.mk (pre ++ selfReportBlob stw X)))]) "StructOutput" =
      PyVal.none := by
    simp [pyGet, List.lookup]
  have hct : pyGet (.dict [("IsSuccess", v),
      ("Content", .str (String.mk (pre ++ selfReportBlob stw X)))]) "Content" =
      .str (String.mk (pre ++ selfReportBlob stw X)) := by
    simp [pyGet, List.lookup]
  simp only [hso, hct,
    show infer_case_status_reason_from_struct_output PyVal.none =
      (Option.none, Option.none) from rfl]
  exact infer_content_selfReport stw X pre hstw hX hstrip hmarker

/-- C3 amended: a plain structured self-report
`\x7b"status":"fail","reason":"X"\x7d` (or with status skip) embedded at
the end of the textual content of a code-1 or code-3 result payload
downgrades the pass verdict to fail (resp. skip) with reason X —
provided the localized final-status marker regex does not match the
content, the self-report is the last `\x7b"status"`-anchored object
(guaranteed here by X carrying no quote, backslash or brace characters
and the report sitting at the end), and no `StructOutput` self-report
preempts it.  The borrow half of the claim holds of the override step:
a fail/skip pre-inference status with an empty reason borrows the
self-report's non-empty reason.  The escaped form of the embedding does
not downgrade (see the counterexample). -/
theorem plain_self_report_downgrades (stw : String)
    (hstw : stw = "fail" ∨ stw = "skip")
    (pre X : List Char) (c : Int) (hc : c = 1 ∨ c = 3)
    (hX : ∀ ch ∈ X, jsonPlainChar ch = true) (hXne : X ≠ [])
    (hXstrip : stripChars X = X)
    (hstrip : stripChars (pre ++ selfReportBlob stw X) = pre ++ selfReportBlob stw X)
    (hmarker : markerSearchGo (pre ++ selfReportBlob stw X) = Option.none) :
    result_status_reason
        (.dict [("Result", .dict
          [("IsSuccess", .int c),
           ("Content", .str (String.mk (pre ++ selfReportBlob stw X)))])]) false =
      (stw, String.mk X) ∧
    ∀ (stb : String) (ist : Option String) (r : String),
      (stb = "fail" ∨ stb = "skip") → r ≠ "" →
      apply_struct_inference (stb, "") (ist, Option.some r) = (stb, r) := by
  constructor
  · have hstwc : ∀ ch ∈ stw.data, jsonPlainChar ch = true := by
      rcases hstw with h | h <;> subst h <;> decide
    rw [result_status_reason, result_payload_of_wrapper]
    rw [infer_payload_selfReport stw X pre (.int c) hstwc hX hstrip hmarker]
    rw [statusReasonOfObj_selfReport stw hstw X hXne hXstrip]
    rw [result_base_wrapper]
    have hcode : coerce_is_success_code (pyGet (.dict
        [("IsSuccess", PyVal.int c),
         ("Content", .str (String.mk (pre ++ selfReportBlob stw X)))]) "IsSuccess") =
        Option.some c := by
      simp [pyGet, List.lookup, coerce_is_success_code]
    rw [hcode]
    have hXbne : (String.mk X != "") = true := by
      simp only [bne, stringMk_beq_empty_false X hXne, Bool.not_false]
    rcases hc with h | h <;> subst h <;> rcases hstw with h2 | h2 <;> subst h2 <;>
      simp [apply_struct_inference, hXbne]
  · intro stb ist r hstb hr
    have hrb : (r != "") = true := by simp [hr]
    rcases hstb with h | h <;> subst h <;> simp [apply_struct_inference, hrb]

theorem plain_self_report_downgrades_witness :
    result_status_reason
        (.dict [("Result", .dict
          [("IsSuccess", .int 1),
           ("Content", .str (String.mk
             (['o', 'k', ' '] ++ selfReportBlob "fail"
               ['b', 'r', 'o', 'k', 'e', 'n'])))])]) false =
      ("fail", String.mk ['b', 'r', 'o', 'k', 'e', 'n']) :=
  (plain_self_report_downgrades "fail" (Or.inl rfl) ['o', 'k', ' ']
    ['b', 'r', 'o', 'k', 'e', 'n'] 1 (Or.inl rfl) (by decide) (by decide)
    (by decide) (by decide) (by decide)).1

/-- C3 counterexample: the same self-report embedded with one level of
string-escaping (`\x7b\"status\": \"fail\", \"reason\": \"X\"\x7d`) does
not downgrade the code-1 pass: the escaped-anchor search finds the
blob, but the brace extractor treats the first escaped quote as opening
a string that never closes, extraction yields nothing, and the verdict
stays `pass` — the claim promised `fail` with reason "X". -/
theorem escaped_self_report_not_extracted :
    result_status_reason
        (.dict [("Result", .dict
          [("IsSuccess", .int 1),
           ("Content", .str
             "prefix \x7b\\\"status\\\": \\\"fail\\\", \\\"reason\\\": \\\"X\\\"\x7d suffix")])])
        false = ("pass", "") ∧
    (("pass", "") : String × String) ≠ ("fail", "X") :=
  ⟨rfl, by decide⟩

/-! ### Step-trace completion signal (`case_runner.py:94-198`) -/

/-- Quote character class `['\"]` of the request_user regex. -/
def isRegexQuote (c : Char) : Bool :=
  c == '\"' || c == Char.ofNat 39

/-- Characters of the literal `request_user`. -/
def reqUserChars : List Char :=
  ['r', 'e', 'q', 'u', 'e', 's', 't', '_', 'u', 's', 'e', 'r']

/-- Attempt of `['\"]?\s*[:：]\s*['\"]([^'\"]+)['\"]` after the literal,
returning the captured group.  The optional quote, whitespace runs and
quote classes are pairwise disjoint, so greedy matching is exact. -/
def requestUserTail (cs : List Char) : Option String :=
  let cs1 := match cs with
    | c :: tl => if isRegexQuote c then tl else cs
    | [] => cs
  match cs1.dropWhile pyIsSpace with
  | c :: tl =>
      if c == ':' || c == '：' then
        match tl.dropWhile pyIsSpace with
        | q :: tl2 =>
            if isRegexQuote q then
              let grp := tl2.takeWhile (fun ch => !isRegexQuote ch)
              let rest := tl2.dropWhile (fun ch => !isRegexQuote ch)
              if grp.isEmpty then Option.none
              else if rest.isEmpty then Option.none
              else Option.some (String.mk grp)
            else Option.none
        | [] => Option.none
      else Option.none
  | [] => Option.none

/-- Model of `re.search` for
`request_user['\"]?\s*[:：]\s*['\"]([^'\"]+)['\"]` (`case_runner.py:101`). -/
def requestUserSearchGo : List Char → Option String
  | [] => Option.none
  | c :: tl =>
      if matchesAt reqUserChars (c :: tl) then
        match requestUserTail ((c :: tl).drop 12) with
        | Option.some g => Option.some g
        | Option.none => requestUserSearchGo tl
      else requestUserSearchGo tl

/-- Embedding of `_extract_request_user_from_text`
(`case_runner.py:94-106`): regex group (stripped, empty collapsing to
`None`) when the structured form is present, else the stripped text
truncated to 500 characters. -/
def extract_request_user_from_text (s : String) : Option String :=
  if s == "" then Option.none
  else if !containsSub s.data reqUserChars then Option.none
  else
    match requestUserSearchGo s.data with
    | Option.some grp =>
        if pyStrip grp == "" then Option.none else Option.some (pyStrip grp)
    | Option.none =>
        let t := (stripChars s.data).take 500
        if t.isEmpty then Option.none else Option.some (String.mk t)

/-- Embedding of `_find_request_user_in_obj` (`case_runner.py:109-132`),
fuel-bounded for the nested traversal (a fuel of `sizeOf` always
suffices); an empty-string hit from a child is falsy and the scan
continues, mirroring Python's `if hit:`. -/
def find_request_user_in_obj : Nat → PyVal → Option String
  | 0, _ => Option.none
  | fuel + 1, v =>
      match v with
      | .str s => extract_request_user_from_text s
      | .dict xs =>
          let keyPart : Option String :=
            if pyHasKey (.dict xs) "request_user" then
              match pyGet (.dict xs) "request_user" with
              | .str s =>
                  if pyStrip s != "" then Option.some (pyStrip s) else Option.some s
              | .none => Option.none
              | other => Option.some (pyStr other)
            else Option.none
          (match keyPart with
           | Option.some h => Option.some h
           | Option.none => findInPairs fuel xs)
      | .list xs => findInVals fuel xs
      | _ => Option.none
where
  findInPairs : Nat → List (String × PyVal) → Option String
    | _, [] => Option.none
    | fuel, (_, v) :: tl =>
        match find_request_user_in_obj fuel v with
        | Option.some h => if h == "" then findInPairs fuel tl else Option.some h
        | Option.none => findInPairs fuel tl
  findInVals : Nat → List PyVal → Option String
    | _, [] => Option.none
    | fuel, v :: tl =>
        match find_request_user_in_obj fuel v with
        | Option.some h => if h == "" then findInVals fuel tl else Option.some h
        | Option.none => findInVals fuel tl

/-- Structural size of a `PyVal`, used as traversal fuel (it strictly
exceeds the nesting depth). -/
def pySize : PyVal → Nat
  | .list xs => 1 + sizeVals xs
  | .dict xs => 1 + sizePairs xs
  | _ => 1
where
  sizeVals : List PyVal → Nat
    | [] => 0
    | v :: tl => pySize v + sizeVals tl
  sizePairs : List (String × PyVal) → Nat
    | [] => 0
    | (_, v) :: tl => pySize v + sizePairs tl

/-- Wrapper choosing a sufficient fuel for the nested traversal. -/
def find_request_user (v : PyVal) : Option String :=
  find_request_user_in_obj (pySize v) v

/-- Embedding of the `_extract_hint_from_step` closure
(`case_runner.py:169-183`): `Param.content` first, then
`StepResult.Result`, stripped and non-empty. -/
def extract_hint_from_step (step : PyVal) : Option String :=
  let fromParam : Option String :=
    match pyGet step "Param" with
    | .dict _ =>
        (match pyGet (pyGet step "Param") "content" with
         | .str c => if pyStrip c == "" then Option.none else Option.some (pyStrip c)
         | _ => Option.none)
    | _ => Option.none
  match fromParam with
  | Option.some h => Option.some h
  | Option.none =>
      match pyGet step "StepResult" with
      | .dict _ =>
          (match pyGet (pyGet step "StepResult") "Result" with
           | .str r => if pyStrip r == "" then Option.none else Option.some (pyStrip r)
           | _ => Option.none)
      | _ => Option.none

/-- Truthiness of an optional string (`None` and the empty string are
falsy). -/
def optStrTruthy : Option String → Bool
  | Option.some s => s != ""
  | Option.none => false

/-- The per-step-list scan of `_extract_current_step_signal`
(`case_runner.py:163-198`). -/
def scanSteps : List PyVal → Bool × Option String × Option String
  | [] => (false, Option.none, Option.none)
  | it :: tl =>
      if !pyIsDict it then scanSteps tl
      else
        let action := pyLower (pyStrip (pyStr (pyOr (pyGet it "Action") (.str ""))))
        if action == "finished" then
          (true, Option.some "finished", extract_hint_from_step it)
        else if action == "request_user" then
          let hit := find_request_user it
          (true, Option.some "request_user",
           if optStrTruthy hit then hit else extract_hint_from_step it)
        else
          let hit := find_request_user it
          if optStrTruthy hit then (true, Option.some "request_user", hit)
          else scanSteps tl

/-- Embedding of `_extract_current_step_signal`
(`case_runner.py:135-198`): `(done, signal, hint)` from one
`ListAgentRunCurrentStep` response. -/
def extract_current_step_signal (resp : PyVal) : Bool × Option String × Option String :=
  match resp with
  | .dict xs =>
      if xs.isEmpty then (false, Option.none, Option.none)
      else if pyTruthy (pyGet resp "Error") then (false, Option.none, Option.none)
      else
        let payload := if pyIsDict (pyGet resp "Result") then pyGet resp "Result" else resp
        let results := pyOr (pyGet payload "Results") (pyGet payload "results")
        match results with
        | .list (r0 :: rs) => scanSteps (r0 :: rs)
        | _ =>
            let hit := find_request_user payload
            if optStrTruthy hit then (true, Option.some "request_user", hit)
            else (false, Option.none, Option.none)
  | _ => (false, Option.none, Option.none)

/-- Embedding of `_is_done_by_get_result` (`case_runner.py:358-382`):
a probed `GetAgentResult` response is treated as terminal. -/
def is_done_by_get_result (resp : PyVal) : Bool :=
  match resp with
  | .dict xs =>
      if xs.isEmpty then false
      else if pyTruthy (pyGet resp "Error") then true
      else
        let payload := if pyHasKey resp "Result" then pyGet resp "Result" else resp
        match payload with
        | .none => true
        | .dict _ =>
            (match coerce_is_success_code (pyGet payload "IsSuccess") with
             | Option.some c => c != 0
             | Option.none => false)
        | _ => false
  | _ => false

/-! ### The task lifecycle (`case_runner.py:714-1003`) -/

/-- One kind of interaction of `run_one_case` with the outside world:
task submission, a step-trace poll, a final-result fetch, a cancel
attempt, a pod-metadata lookup, or registering the run id in the
active-run registry. -/
inductive CallEv where
  | submit
  | stepPoll
  | getResult
  | cancel
  | detailPod
  | registerRun
deriving DecidableEq

/-- Outcome of the `RunAgentTask` submission call: a run id (possibly
empty), an ordinary exception, or an interrupt-class `BaseException`. -/
inductive SubmitOutcome where
  | ok (rid : String)
  | exc
  | baseExc

/-- Oracle supplying the environment of one `run_one_case` execution:
the shutdown-flag observations in check order (`stop 0` is the
pre-submit check of `case_runner.py:727`, `stop (k+1)` the check at the
top of loop iteration `k`), the submission outcome, the step-trace and
final-result responses (the latter indexed by a get-result call
counter), the per-iteration deadline check, and the remote cancel
behaviour. -/
structure CaseOracle where
  stop : Nat → Bool
  submit : SubmitOutcome
  stepResp : Nat → PyVal
  grResp : Nat → PyVal
  timedOut : Nat → Bool
  cancelRemote : String → RemoteOutcome

/-- Update of the running `last_step_hint` (`case_runner.py:887-888`):
a truthy new hint replaces the old one. -/
def updHint (old new : Option String) : Option String :=
  if optStrTruthy new then new else old

/-- Reason fallback on a completed resolution
(`case_runner.py:909-910,931-932`): an empty reason is replaced by a
truthy last step hint. -/
def hintOverride (rr : String × String) (hint : Option String) : String × String :=
  if optStrTruthy hint && rr.2 == "" then (rr.1, hint.getD "") else rr

/-- The polling loop of `run_one_case` (`case_runner.py:856-954`),
fuel-bounded (the source loop is bounded by the wall-clock deadline,
which the `timedOut` oracle models; the fuel only needs to exceed the
number of iterations the oracle allows).  State: iteration index `k`,
probe counter `pp`, get-result call counter `gr`, `last_resp`, the
running hint, and the cancellation cache.  Returns the status/reason
pair, the calls made inside the loop, one probe-check flag per
iteration that reached the probe point (`case_runner.py:914-915`), and
the final cache. -/
def runCaseLoop (o : CaseOracle) (rid : String) :
    Nat → Nat → Nat → Nat → PyVal → Option String → CancelCache →
      (String × String) × List CallEv × List Bool × CancelCache
  | 0, _, _, _, _, _, cache => (("", "fuel exhausted"), [], [], cache)
  | fuel + 1, k, pp, gr, lastResp, lastHint, cache =>
      if o.stop (k + 1) then
        let c1 := cancel_task_best_effort o.cancelRemote cache rid
        (("skip", "本地中断，已触发 CancelTask"),
         [CallEv.cancel, CallEv.detailPod], [], c1.2.1)
      else
        let step := extract_current_step_signal (o.stepResp k)
        let lastHint2 := updHint lastHint step.2.2
        let afterStep :
            ((String × String) × List CallEv × List Bool × CancelCache) ⊕
              (Nat × PyVal) :=
          if step.1 then
            let finalResp := o.grResp gr
            if is_done_by_get_result finalResp then
              Sum.inl
                ((hintOverride
                   (result_status_reason (pyOr finalResp lastResp) false) lastHint2),
                 [CallEv.stepPoll, CallEv.getResult, CallEv.detailPod], [], cache)
            else
              Sum.inr (gr + 1, if pyTruthy finalResp then finalResp else lastResp)
          else Sum.inr (gr, lastResp)
        match afterStep with
        | Sum.inl out => out
        | Sum.inr (gr2, lastResp2) =>
            let stepCalls :=
              if step.1 then [CallEv.stepPoll, CallEv.getResult] else [CallEv.stepPoll]
            let pp2 := pp + 1
            let probeFired := pp2 % 5 == 0
            if probeFired then
              let probe := o.grResp gr2
              if is_done_by_get_result probe then
                ((hintOverride (result_status_reason probe false) lastHint2),
                 stepCalls ++ [CallEv.getResult, CallEv.detailPod], [true], cache)
              else
                let lastResp3 := if pyTruthy probe then probe else lastResp2
                if o.timedOut k then
                  let c1 := cancel_task_best_effort o.cancelRemote cache rid
                  ((result_status_reason lastResp3 true),
                   stepCalls ++ [CallEv.getResult, CallEv.cancel, CallEv.detailPod],
                   [true], c1.2.1)
                else
                  let rec_ := runCaseLoop o rid fuel (k + 1) pp2 (gr2 + 1) lastResp3
                    lastHint2 cache
                  (rec_.1, stepCalls ++ [CallEv.getResult] ++ rec_.2.1,
                   true :: rec_.2.2.1, rec_.2.2.2)
            else
              if o.timedOut k then
                let c1 := cancel_task_best_effort o.cancelRemote cache rid
                ((result_status_reason lastResp2 true),
                 stepCalls ++ [CallEv.cancel, CallEv.detailPod], [false], c1.2.1)
              else
                let rec_ := runCaseLoop o rid fuel (k + 1) pp2 gr2 lastResp2
                  lastHint2 cache
                (rec_.1, stepCalls ++ rec_.2.1, false :: rec_.2.2.1, rec_.2.2.2)

/-- Result of the `run_one_case` model: the verdict status/reason, the
calls issued, and the probe-check flags of the loop iterations. -/
structure CaseRunResult where
  status : String
  reason : String
  calls : List CallEv
  probes : List Bool
deriving DecidableEq

/-- Embedding of `run_one_case` (`case_runner.py:714-1003`) over the
`CaseOracle`: shutdown pre-check, empty-content short circuit (with its
pod-metadata lookup), submission and its exception paths, the no-run-id
failure, then registration and the polling loop.  Exception reasons
keep the static prefix of the formatted source message; the
`task_status` and cancel-summary output fields, duration, timestamps
and the per-result auxiliary fields are outside the modelled pair. -/
def run_one_case_model (o : CaseOracle) (content : String) (cache : CancelCache)
    (fuel : Nat) : CaseRunResult × CancelCache :=
  if o.stop 0 then (⟨"skip", "本地中断，未执行", [], []⟩, cache)
  else if pyStrip content == "" then
    (⟨"skip", "用例内容为空", [CallEv.detailPod], []⟩, cache)
  else
    match o.submit with
    | .exc => (⟨"fail", "RunAgentTask 调用异常", [CallEv.submit], []⟩, cache)
    | .baseExc =>
        (⟨"skip", "本地退出：RunAgentTask 调用被中断", [CallEv.submit], []⟩, cache)
    | .ok rid =>
        if rid == "" then
          (⟨"fail", "未获取到 RunId（RunAgentTask 调用失败）",
            [CallEv.submit, CallEv.detailPod], []⟩, cache)
        else
          let lp := runCaseLoop o rid fuel 0 0 0 (.dict []) Option.none cache
          (⟨lp.1.1, lp.1.2, CallEv.submit :: CallEv.registerRun :: lp.2.1, lp.2.2.1⟩,
           lp.2.2.2)


/-- Probe-cadence shape of the poll loop: the recorded probe flags of
`runCaseLoop` are always an initial segment of the cadence sequence
`decide ((pp + j + 1) % 5 = 0)`, one flag per loop iteration that reaches the
probe point (`case_runner.py:913-933`). -/
theorem runCaseLoop_probes_shape (o : CaseOracle) (rid : String) :
    ∀ (fuel k pp gr : Nat) (lastResp : PyVal) (lastHint : Option String)
      (cache : CancelCache),
      ∃ m : Nat,
        (runCaseLoop o rid fuel k pp gr lastResp lastHint cache).2.2.1 =
          (List.range m).map (fun j => decide ((pp + j + 1) % 5 = 0)) := by
  intro fuel
  induction fuel with
  | zero =>
      intro k pp gr lastResp lastHint cache
      exact ⟨0, by simp [runCaseLoop]⟩
  | succ f ih =>
      intro k pp gr lastResp lastHint cache
      rw [runCaseLoop]
      by_cases hstop : o.stop (k + 1) = true
      · exact ⟨0, by simp [hstop]⟩
      · simp only [hstop, Bool.false_eq_true, if_false]
        by_cases hstep : (extract_current_step_signal (o.stepResp k)).1 = true
        · by_cases hterm : is_done_by_get_result (o.grResp gr) = true
          · exact ⟨0, by simp [hstep, hterm]⟩
          · simp only [hstep, hterm, Bool.false_eq_true, if_false, if_true]
            by_cases hpf : ((pp + 1) % 5 == 0) = true
            · by_cases hpterm : is_done_by_get_result (o.grResp (gr + 1)) = true
              · refine ⟨1, ?_⟩
                simp [hpf, hpterm, List.range_succ]
                simpa using hpf
              · by_cases hto : o.timedOut k = true
                · refine ⟨1, ?_⟩
                  simp [hpf, hpterm, hto, List.range_succ]
                  simpa using hpf
                · obtain ⟨m, hm⟩ := ih (k + 1) (pp + 1)
                    (gr + 1 + 1)
                    (if pyTruthy (o.grResp (gr + 1)) then o.grResp (gr + 1)
                     else if pyTruthy (o.grResp gr) then o.grResp gr else lastResp)
                    (updHint lastHint (extract_current_step_signal (o.stepResp k)).2.2)
                    cache
                  refine ⟨m + 1, ?_⟩
                  simp only [hpf, hpterm, hto, Bool.false_eq_true, if_false, if_true]
                  rw [List.range_succ_eq_map]
                  simp only [List.map_cons, List.map_map]
                  rw [List.cons.injEq]
                  constructor
                  · simpa using hpf
                  · rw [hm]
                    congr 1
                    funext j
                    simp only [Function.comp_apply]
                    have harg : pp + 1 + j + 1 = pp + Nat.succ j + 1 := by omega
                    rw [harg]
            · by_cases hto : o.timedOut k = true
              · refine ⟨1, ?_⟩
                simp [hpf, hto, List.range_succ]
                simpa using hpf
              · obtain ⟨m, hm⟩ := ih (k + 1) (pp + 1) (gr + 1)
                  (if pyTruthy (o.grResp gr) then o.grResp gr else lastResp)
                  (updHint lastHint (extract_current_step_signal (o.stepResp k)).2.2)
                  cache
                refine ⟨m + 1, ?_⟩
                simp only [hpf, hto, Bool.false_eq_true, if_false]
                rw [List.range_succ_eq_map]
                simp only [List.map_cons, List.map_map]
                rw [List.cons.injEq]
                constructor
                · simpa using hpf
                · rw [hm]
                  congr 1
                  funext j
                  simp only [Function.comp_apply]
                  have harg : pp + 1 + j + 1 = pp + Nat.succ j + 1 := by omega
                  rw [harg]
        · simp only [hstep, Bool.false_eq_true, if_false]
          by_cases hpf : ((pp + 1) % 5 == 0) = true
          · by_cases hpterm : is_done_by_get_result (o.grResp gr) = true
            · refine ⟨1, ?_⟩
              simp [hpf, hpterm, List.range_succ]
              simpa using hpf
            · by_cases hto : o.timedOut k = true
              · refine ⟨1, ?_⟩
                simp [hpf, hpterm, hto, List.range_succ]
                simpa using hpf
              · obtain ⟨m, hm⟩ := ih (k + 1) (pp + 1) (gr + 1)
                  (if pyTruthy (o.grResp gr) then o.grResp gr else lastResp)
                  (updHint lastHint (extract_current_step_signal (o.stepResp k)).2.2)
                  cache
                refine ⟨m + 1, ?_⟩
                simp only [hpf, hpterm, hto, Bool.false_eq_true, if_false, if_true]
                rw [List.range_succ_eq_map]
                simp only [List.map_cons, List.map_map]
                rw [List.cons.injEq]
                constructor
                · simpa using hpf
                · rw [hm]
                  congr 1
                  funext j
                  simp only [Function.comp_apply]
                  have harg : pp + 1 + j + 1 = pp + Nat.succ j + 1 := by omega
                  rw [harg]
          · by_cases hto : o.timedOut k = true
            · refine ⟨1, ?_⟩
              simp [hpf, hto, List.range_succ]
              simpa using hpf
            · obtain ⟨m, hm⟩ := ih (k + 1) (pp + 1) gr lastResp
                (updHint lastHint (extract_current_step_signal (o.stepResp k)).2.2)
                cache
              refine ⟨m + 1, ?_⟩
              simp only [hpf, hto, Bool.false_eq_true, if_false]
              rw [List.range_succ_eq_map]
              simp only [List.map_cons, List.map_map]
              rw [List.cons.injEq]
              constructor
              · simpa using hpf
              · rw [hm]
                congr 1
                funext j
                simp only [Function.comp_apply]
                have harg : pp + 1 + j + 1 = pp + Nat.succ j + 1 := by omega
                rw [harg]

/-- Test for the Python value `None`. -/
def pyIsNone : PyVal → Bool
  | .none => true
  | _ => false

/-- Formalization of the amended terminality condition, written from the
spec side for comparison with `is_done_by_get_result`: a probed response is
terminal exactly when it is a non-empty dict and either its top-level `Error`
is truthy, or it binds `Result` to null, or its payload (the value under
`Result` if that key is present, else the response itself) is a dict whose
coerced success code is present and non-zero. -/
def probe_terminal_spec (resp : PyVal) : Bool :=
  match resp with
  | .dict xs =>
      !xs.isEmpty &&
        (pyTruthy (pyGet (.dict xs) "Error") ||
         (pyHasKey (.dict xs) "Result" && pyIsNone (pyGet (.dict xs) "Result")) ||
         (let payload := if pyHasKey (.dict xs) "Result" then pyGet (.dict xs) "Result"
            else .dict xs
          pyIsDict payload &&
            match coerce_is_success_code (pyGet payload "IsSuccess") with
            | Option.some c => c != 0
            | Option.none => false))
  | _ => false

/-- Equivalence between the embedded `_is_done_by_get_result`
(`case_runner.py:358-382`) and the amended terminality condition. -/
theorem is_done_iff_spec (resp : PyVal) :
    is_done_by_get_result resp = probe_terminal_spec resp := by
  cases resp with
  | dict xs =>
      rw [is_done_by_get_result, probe_terminal_spec]
      by_cases he : xs.isEmpty = true
      · simp [he]
      · simp only [he, Bool.false_eq_true, if_false, Bool.not_false, Bool.true_and]
        by_cases herr : pyTruthy (pyGet (.dict xs) "Error") = true
        · simp [herr]
        · simp only [herr, Bool.false_eq_true, if_false, Bool.false_or]
          by_cases hk : pyHasKey (.dict xs) "Result" = true
          · simp only [hk, if_true, Bool.true_and]
            cases hv : pyGet (.dict xs) "Result" with
            | none => simp [pyIsNone, pyIsDict]
            | dict ys =>
                simp only [pyIsNone, pyIsDict, Bool.true_and, Bool.or_false,
                  Bool.false_or]
            | bool b => simp [pyIsNone, pyIsDict]
            | int n => simp [pyIsNone, pyIsDict]
            | str s => simp [pyIsNone, pyIsDict]
            | list ys => simp [pyIsNone, pyIsDict]
          · simp only [hk, Bool.false_eq_true, if_false, Bool.false_and, Bool.false_or,
              pyIsDict, Bool.true_and]
  | none => rfl
  | bool b => rfl
  | int n => rfl
  | str s => rfl
  | list xs => rfl

/-- C5 (amended): the result-probe safety net's terminality test agrees with
`probe_terminal_spec` — terminal when the response is a non-empty dict with a
truthy `Error`, a null `Result`, or a dict payload whose coerced success code
is present and non-zero (not only in the last case, as claimed) — and the
probe cadence holds: across every oracle, content, cache and fuel, the probe
flags recorded by `run_one_case_model` are the sequence
`decide ((j + 1) % 5 = 0)` over the iterations reached, so the final result is
actually fetched exactly on every 5th iteration of the poll loop. -/
theorem probe_terminality_and_cadence :
    (∀ resp : PyVal, is_done_by_get_result resp = probe_terminal_spec resp) ∧
    ∀ (o : CaseOracle) (content : String) (cache : CancelCache) (fuel : Nat),
      ∃ m : Nat,
        (run_one_case_model o content cache fuel).1.probes =
          (List.range m).map (fun j => decide ((j + 1) % 5 = 0)) := by
  constructor
  · exact is_done_iff_spec
  · intro o content cache fuel
    rw [run_one_case_model]
    by_cases h0 : o.stop 0 = true
    · exact ⟨0, by simp [h0]⟩
    · by_cases hemp : (pyStrip content == "") = true
      · exact ⟨0, by simp [h0, hemp]⟩
      · cases hsub : o.submit with
        | exc => exact ⟨0, by simp [h0, hemp, hsub]⟩
        | baseExc => exact ⟨0, by simp [h0, hemp, hsub]⟩
        | ok rid =>
            by_cases hrid : (rid == "") = true
            · exact ⟨0, by simp [h0, hemp, hsub, hrid]⟩
            · obtain ⟨m, hm⟩ := runCaseLoop_probes_shape o rid fuel 0 0 0
                (.dict []) Option.none cache
              refine ⟨m, ?_⟩
              simp only [h0, hemp, hsub, hrid, Bool.false_eq_true, if_false]
              show (runCaseLoop o rid fuel 0 0 0 (.dict []) Option.none cache).2.2.1 = _
              rw [hm]
              congr 1
              funext j
              congr 2
              omega

/-- C5 counterexample: a probed response carrying only a truthy `Error`
envelope is treated as terminal by `_is_done_by_get_result` even though its
coerced success code is absent, refuting the claim that terminality holds
exactly when the coerced success code is present and non-zero. -/
theorem probe_terminal_without_success_code :
    is_done_by_get_result (.dict [("Error", .str "boom")]) = true ∧
    coerce_is_success_code (pyGet (.dict [("Error", .str "boom")]) "IsSuccess")
      = Option.none :=
  ⟨rfl, rfl⟩

/-- Benign concrete oracle: never stopped, immediate run id, null step and
final-result responses, no timeout. -/
def trivialOracle : CaseOracle :=
  ⟨fun _ => false, SubmitOutcome.ok "r1", fun _ => .none, fun _ => .none,
   fun _ => false, fun _ => RemoteOutcome.ret (.bool true)⟩

/-- C7: when the shutdown flag is not set and the case content strips to the
empty string, `run_one_case_model` returns a skip verdict whose only recorded
remote interaction is the pod-detail query for reporting: no submit, step
poll, final-result fetch, cancel, or active-run registration happens, and the
cancellation cache is unchanged (`case_runner.py:740-769`). -/
theorem empty_content_short_circuits (o : CaseOracle) (content : String)
    (cache : CancelCache) (fuel : Nat)
    (hstop : o.stop 0 = false) (hemp : pyStrip content = "") :
    (run_one_case_model o content cache fuel).1.status = "skip" ∧
    (run_one_case_model o content cache fuel).1.reason = "用例内容为空" ∧
    (run_one_case_model o content cache fuel).1.calls = [CallEv.detailPod] ∧
    (run_one_case_model o content cache fuel).2 = cache ∧
    ∀ ev ∈ (run_one_case_model o content cache fuel).1.calls,
      ev ≠ CallEv.submit ∧ ev ≠ CallEv.stepPoll ∧ ev ≠ CallEv.getResult ∧
      ev ≠ CallEv.cancel ∧ ev ≠ CallEv.registerRun := by
  have h1 : (pyStrip content == "") = true := by rw [hemp]; rfl
  rw [run_one_case_model, hstop]
  simp only [Bool.false_eq_true, if_false, h1, if_true]
  refine ⟨trivial, trivial, trivial, trivial, ?_⟩
  intro ev hev
  simp only [List.mem_singleton] at hev
  subst hev
  refine ⟨?_, ?_, ?_, ?_, ?_⟩ <;> decide

/-- Concrete instance of `empty_content_short_circuits` on the trivial
oracle and empty content. -/
theorem empty_content_short_circuits_witness :
    (run_one_case_model trivialOracle "" ⟨[]⟩ 0).1.status = "skip" ∧
    (run_one_case_model trivialOracle "" ⟨[]⟩ 0).1.reason = "用例内容为空" ∧
    (run_one_case_model trivialOracle "" ⟨[]⟩ 0).1.calls = [CallEv.detailPod] :=
  ⟨(empty_content_short_circuits trivialOracle "" ⟨[]⟩ 0 rfl rfl).1,
   (empty_content_short_circuits trivialOracle "" ⟨[]⟩ 0 rfl rfl).2.1,
   (empty_content_short_circuits trivialOracle "" ⟨[]⟩ 0 rfl rfl).2.2.1⟩


/-- Discovered case file (`case_runner.py:22-25`): discovery index and name
(path); the content is irrelevant to the suite-level index invariant. -/
structure CaseFile where
  index : Nat
  name : String
deriving DecidableEq

/-- Per-case result record as far as the suite-level invariant sees it:
case name, status, reason (a projection of `ResultItem.to_dict()`). -/
structure RunVerdict where
  kase : String
  status : String
  reason : String
deriving DecidableEq

/-- Index assignment helper for `discover_cases` (`case_runner.py:66-68`):
`enumerate(filtered)` numbers discovered files consecutively from `i`. -/
def idxFrom : Nat → List String → List CaseFile
  | _, [] => []
  | i, n :: tl => ⟨i, n⟩ :: idxFrom (i + 1) tl

/-- Embedding of the index assignment of `discover_cases`: discovered case
names receive indices 0..N-1 in order. -/
def assignIndices (names : List String) : List CaseFile := idxFrom 0 names

/-- Synthesized verdict for a case not executed when shutdown is observed
(`case_runner.py:1135-1146`). -/
def interruptSkip (name : String) : RunVerdict := ⟨name, "skip", "本地中断，未执行"⟩

/-- Embedding of the serial execution loop (`case_runner.py:1120-1126`): the
shutdown flag is consulted before each case (`stop t` after `t` completed
cases); on shutdown the loop breaks, otherwise the case runs and its indexed
result is appended. `runRes` abstracts `_run_case_safe`, which returns a
verdict for every case (it catches all exceptions). -/
def serialLoop (runRes : Nat → RunVerdict) (stop : Nat → Bool) :
    List CaseFile → Nat → List (Nat × RunVerdict)
  | [], _ => []
  | c :: tl, t =>
      if stop t then []
      else (c.index, runRes c.index) :: serialLoop runRes stop tl (t + 1)

/-- Embedding of the shutdown skip-synthesis pass (`case_runner.py:1131-1148`):
every discovered case whose index has no recorded result is appended as an
interrupt-skip entry, in discovery order. -/
def fillMissingSkips (cases : List CaseFile) (rs : List (Nat × RunVerdict)) :
    List (Nat × RunVerdict) :=
  rs ++ (cases.filter (fun c => !((rs.map Prod.fst).contains c.index))).map
    (fun c => (c.index, interruptSkip c.name))

/-- Embedding of `results.sort(key=lambda x: x[0])` (`case_runner.py:1150`):
stable sort of indexed results by index. -/
def sortByIdx (rs : List (Nat × RunVerdict)) : List (Nat × RunVerdict) :=
  rs.insertionSort (fun a b => a.1 ≤ b.1)

/-- Embedding of the serial branch of `run_suite` (`case_runner.py:1110-1151`)
up to the final index-stripping `[r for _, r in results]`: run the loop,
synthesize skips for missing indices if the shutdown flag is observed
afterwards, and sort by index. The flag is modelled as a function of time
(cases completed); the post-loop observation happens at time `cases.length`. -/
def run_suite_serial_pairs (cases : List CaseFile) (runRes : Nat → RunVerdict)
    (stop : Nat → Bool) : List (Nat × RunVerdict) :=
  let executed := serialLoop runRes stop cases 0
  let filled := if stop cases.length then fillMissingSkips cases executed else executed
  sortByIdx filled

/-- Embedding of the parallel-fallback branch (`case_runner.py:1153-1190`),
which duplicates the serial branch's loop, skip synthesis and sort verbatim. -/
def run_suite_fallback_pairs (cases : List CaseFile) (runRes : Nat → RunVerdict)
    (stop : Nat → Bool) : List (Nat × RunVerdict) :=
  let executed := serialLoop runRes stop cases 0
  let filled := if stop cases.length then fillMissingSkips cases executed else executed
  sortByIdx filled

/-- Embedding of the parallel branch of `run_suite`
(`case_runner.py:1192-1256`): worker threads produce the indexed result list
`executed` in a nondeterministic order (kept abstract here); the suite sorts
it, and if the shutdown flag is observed, synthesizes skips for unexecuted
indices and sorts again. -/
def run_suite_parallel_pairs (cases : List CaseFile)
    (executed : List (Nat × RunVerdict)) (shutdown : Bool) :
    List (Nat × RunVerdict) :=
  let r1 := sortByIdx executed
  if shutdown then sortByIdx (fillMissingSkips cases r1) else r1

instance : IsTotal (Nat × RunVerdict) (fun a b => a.1 ≤ b.1) :=
  ⟨fun a b => Nat.le_total a.1 b.1⟩

instance : IsTrans (Nat × RunVerdict) (fun a b => a.1 ≤ b.1) :=
  ⟨fun _ _ _ => Nat.le_trans⟩

/-- Indices assigned by `idxFrom` are consecutive. -/
theorem idxFrom_map_index : ∀ (t : Nat) (names : List String),
    (idxFrom t names).map CaseFile.index = List.range' t names.length
  | _, [] => rfl
  | t, n :: tl => by
      rw [idxFrom, List.map_cons, idxFrom_map_index (t + 1) tl]
      rfl

/-- Sorting an indexed result list whose keys are exactly 0..N-1 (no
duplicates) yields the key sequence 0..N-1 in order. -/
theorem sortByIdx_fst_range (rs : List (Nat × RunVerdict)) (N : Nat)
    (hnd : (rs.map Prod.fst).Nodup)
    (hiff : ∀ i, i ∈ rs.map Prod.fst ↔ i < N) :
    (sortByIdx rs).map Prod.fst = List.range N := by
  have hperm : List.Perm (sortByIdx rs) rs := List.perm_insertionSort _ rs
  have hpermf : List.Perm ((sortByIdx rs).map Prod.fst) (rs.map Prod.fst) :=
    hperm.map _
  have hpr : List.Perm (rs.map Prod.fst) (List.range N) := by
    rw [List.perm_ext_iff_of_nodup hnd (List.nodup_range N)]
    intro i
    rw [List.mem_range]
    exact hiff i
  have hsorted : List.Sorted (fun a b => a.1 ≤ b.1) (sortByIdx rs) :=
    List.sorted_insertionSort _ rs
  have hsf : List.Sorted (fun a b : Nat => a ≤ b) ((sortByIdx rs).map Prod.fst) :=
    List.Pairwise.map _ (fun _ _ h => h) hsorted
  have hrs : List.Sorted (fun a b : Nat => a ≤ b) (List.range N) :=
    (List.pairwise_lt_range N).imp Nat.le_of_lt
  exact List.eq_of_perm_of_sorted (hpermf.trans hpr) hsf hrs

/-- Keys contributed by the skip-synthesis pass are the filtered indices. -/
theorem filterSkips_keys (q : Nat → Bool) :
    ∀ cs : List CaseFile,
      ((cs.filter (fun c => q c.index)).map
          (fun c => (c.index, interruptSkip c.name))).map Prod.fst =
        (cs.map CaseFile.index).filter q := by
  intro cs
  induction cs with
  | nil => rfl
  | cons c tl ih =>
      by_cases h : q c.index = true <;>
        simp [List.filter_cons, h, ih]

/-- After skip synthesis over the discovered cases, the key multiset is
duplicate-free and covers exactly the indices 0..N-1. -/
theorem fillMissing_keys (names : List String) (rs : List (Nat × RunVerdict))
    (hnd : (rs.map Prod.fst).Nodup)
    (hsub : ∀ i ∈ rs.map Prod.fst, i < names.length) :
    ((fillMissingSkips (assignIndices names) rs).map Prod.fst).Nodup ∧
    (∀ i, i ∈ (fillMissingSkips (assignIndices names) rs).map Prod.fst ↔
      i < names.length) := by
  have hidx : (assignIndices names).map CaseFile.index = List.range names.length := by
    rw [assignIndices, idxFrom_map_index, List.range_eq_range']
  have hkeys : (fillMissingSkips (assignIndices names) rs).map Prod.fst =
      rs.map Prod.fst ++
        (List.range names.length).filter
          (fun i => !((rs.map Prod.fst).contains i)) := by
    rw [fillMissingSkips, List.map_append,
      filterSkips_keys (fun i => !((rs.map Prod.fst).contains i)), hidx]
  rw [hkeys]
  constructor
  · rw [List.nodup_append]
    refine ⟨hnd, (List.nodup_range names.length).filter _, ?_⟩
    intro i hi hj
    rw [List.mem_filter] at hj
    have hc : (rs.map Prod.fst).contains i = true := List.elem_iff.mpr hi
    rw [hc] at hj
    simp at hj
  · intro i
    rw [List.mem_append, List.mem_filter, List.mem_range]
    constructor
    · intro h
      cases h with
      | inl h => exact hsub i h
      | inr h => exact h.1
    · intro h
      by_cases hm : i ∈ rs.map Prod.fst
      · exact Or.inl hm
      · refine Or.inr ⟨h, ?_⟩
        have hc : (rs.map Prod.fst).contains i = false := by simpa using hm
        rw [hc]
        rfl

/-- Keys recorded by the serial loop form a consecutive prefix of the case
indices, and the prefix is complete when the shutdown flag never trips. -/
theorem serialLoop_keys (runRes : Nat → RunVerdict) (stop : Nat → Bool) :
    ∀ (names : List String) (t : Nat),
      ∃ m, m ≤ names.length ∧
        (serialLoop runRes stop (idxFrom t names) t).map Prod.fst =
          List.range' t m ∧
        ((∀ j, j < names.length → stop (t + j) = false) → m = names.length) := by
  intro names
  induction names with
  | nil =>
      intro t
      exact ⟨0, Nat.le_refl 0, rfl, fun _ => rfl⟩
  | cons n tl ih =>
      intro t
      rw [idxFrom, serialLoop]
      by_cases hs : stop t = true
      · refine ⟨0, Nat.zero_le _, by simp [hs], ?_⟩
        intro hall
        have h0 : stop (t + 0) = false := hall 0 (Nat.succ_pos _)
        rw [Nat.add_zero] at h0
        rw [h0] at hs
        exact absurd hs (by simp)
      · obtain ⟨m, hm1, hm2, hm3⟩ := ih (t + 1)
        refine ⟨m + 1, Nat.succ_le_succ hm1, ?_, ?_⟩
        · simp only [hs, Bool.false_eq_true, if_false, List.map_cons, hm2]
          rw [List.range'_succ]
        · intro hall
          have hmt : m = tl.length := hm3 (fun j hj => by
            have h := hall (j + 1) (Nat.succ_lt_succ hj)
            rwa [show t + (j + 1) = t + 1 + j from by omega] at h)
          rw [hmt]
          rfl

/-- Each in-range index occurs in the indexed case list with its name. -/
theorem idxFrom_mem_getD : ∀ (names : List String) (t i : Nat),
    i < names.length →
    (⟨t + i, names.getD i ""⟩ : CaseFile) ∈ idxFrom t names := by
  intro names
  induction names with
  | nil => intro t i h; exact absurd h (Nat.not_lt_zero i)
  | cons n tl ih =>
      intro t i h
      cases i with
      | zero =>
          rw [idxFrom]
          exact List.mem_cons_self _ _
      | succ j =>
          have hj : j < tl.length := Nat.lt_of_succ_lt_succ h
          have hmem := ih (t + 1) j hj
          rw [idxFrom]
          refine List.mem_cons_of_mem _ ?_
          rwa [show t + (j + 1) = t + 1 + j from by omega,
            show (n :: tl).getD (j + 1) "" = tl.getD j "" from rfl]

/-- Skip synthesis produces an interrupt-skip entry for every in-range index
without a recorded result. -/
theorem fillMissing_skip_mem (names : List String) (rs : List (Nat × RunVerdict))
    (i : Nat) (hi : i < names.length) (hnot : i ∉ rs.map Prod.fst) :
    (i, interruptSkip (names.getD i "")) ∈
      fillMissingSkips (assignIndices names) rs := by
  rw [fillMissingSkips, List.mem_append]
  right
  rw [List.mem_map]
  refine ⟨⟨i, names.getD i ""⟩, ?_, rfl⟩
  rw [List.mem_filter]
  constructor
  · have hmem := idxFrom_mem_getD names 0 i hi
    rw [Nat.zero_add] at hmem
    exact hmem
  · have hc : (rs.map Prod.fst).contains i = false := by simpa using hnot
    rw [hc]
    rfl

/-- Index invariant of the serial branch, given that the shutdown flag is
monotone (a `threading.Event` is never cleared once set). -/
theorem serial_pairs_spec (names : List String) (runRes : Nat → RunVerdict)
    (stop : Nat → Bool)
    (hmono : ∀ i j, i ≤ j → stop i = true → stop j = true) :
    ((run_suite_serial_pairs (assignIndices names) runRes stop).map Prod.fst =
        List.range names.length) ∧
    (∀ i, i < names.length →
      i ∉ (serialLoop runRes stop (assignIndices names) 0).map Prod.fst →
      (i, interruptSkip (names.getD i "")) ∈
        run_suite_serial_pairs (assignIndices names) runRes stop) := by
  obtain ⟨m, hm1, hm2, hm3⟩ := serialLoop_keys runRes stop names 0
  have hlen : (assignIndices names).length = names.length := by
    have h := congrArg List.length (idxFrom_map_index 0 names)
    simpa using h
  have hex : (serialLoop runRes stop (assignIndices names) 0).map Prod.fst =
      List.range m := by
    rw [assignIndices, hm2]
    exact (List.range_eq_range' m).symm
  have hndex : ((serialLoop runRes stop (assignIndices names) 0).map
      Prod.fst).Nodup := by
    rw [hex]
    exact List.nodup_range m
  have hsubex : ∀ i ∈ (serialLoop runRes stop (assignIndices names) 0).map Prod.fst,
      i < names.length := by
    intro i hi
    rw [hex, List.mem_range] at hi
    omega
  by_cases hst : stop (assignIndices names).length = true
  · have hfk := fillMissing_keys names
      (serialLoop runRes stop (assignIndices names) 0) hndex hsubex
    constructor
    · show (sortByIdx (if stop (assignIndices names).length then
          fillMissingSkips (assignIndices names)
            (serialLoop runRes stop (assignIndices names) 0)
          else serialLoop runRes stop (assignIndices names) 0)).map Prod.fst =
        List.range names.length
      rw [if_pos hst]
      exact sortByIdx_fst_range _ names.length hfk.1 hfk.2
    · intro i hi hnot
      show (i, interruptSkip (names.getD i "")) ∈
        sortByIdx (if stop (assignIndices names).length then
          fillMissingSkips (assignIndices names)
            (serialLoop runRes stop (assignIndices names) 0)
          else serialLoop runRes stop (assignIndices names) 0)
      rw [if_pos hst]
      have hmem := fillMissing_skip_mem names _ i hi hnot
      exact ((List.perm_insertionSort _ _).mem_iff).mpr hmem
  · have hstN : stop names.length = false := by
      rw [hlen] at hst
      cases h' : stop names.length with
      | false => rfl
      | true => exact absurd h' hst
    have hnost : ∀ j, j < names.length → stop (0 + j) = false := by
      intro j hj
      cases h' : stop (0 + j) with
      | false => rfl
      | true =>
          have hN := hmono (0 + j) names.length (by omega) h'
          rw [hN] at hstN
          exact absurd hstN (by simp)
    have hmN : m = names.length := hm3 hnost
    constructor
    · show (sortByIdx (if stop (assignIndices names).length then
          fillMissingSkips (assignIndices names)
            (serialLoop runRes stop (assignIndices names) 0)
          else serialLoop runRes stop (assignIndices names) 0)).map Prod.fst =
        List.range names.length
      rw [if_neg hst]
      refine sortByIdx_fst_range _ names.length hndex ?_
      intro i
      rw [hex, List.mem_range, hmN]
    · intro i hi hnot
      rw [hex, List.mem_range, hmN] at hnot
      exact absurd hi hnot

/-- Index invariant of the parallel branch, given the queue discipline: no
index is executed twice, executed indices are discovered ones, and without an
observed shutdown every discovered case is executed. -/
theorem parallel_pairs_spec (names : List String)
    (executed : List (Nat × RunVerdict)) (shutdown : Bool)
    (hnd : (executed.map Prod.fst).Nodup)
    (hsub : ∀ i ∈ executed.map Prod.fst, i < names.length)
    (hcomp : shutdown = false → ∀ i, i < names.length →
      i ∈ executed.map Prod.fst) :
    ((run_suite_parallel_pairs (assignIndices names) executed shutdown).map
        Prod.fst = List.range names.length) ∧
    (shutdown = true → ∀ i, i < names.length → i ∉ executed.map Prod.fst →
      (i, interruptSkip (names.getD i "")) ∈
        run_suite_parallel_pairs (assignIndices names) executed shutdown) := by
  have hperm : List.Perm (sortByIdx executed) executed :=
    List.perm_insertionSort _ _
  have hpf : List.Perm ((sortByIdx executed).map Prod.fst)
      (executed.map Prod.fst) := hperm.map _
  have hnd1 : ((sortByIdx executed).map Prod.fst).Nodup := hpf.nodup_iff.mpr hnd
  have hsub1 : ∀ i ∈ (sortByIdx executed).map Prod.fst, i < names.length := by
    intro i hi
    exact hsub i (hpf.mem_iff.mp hi)
  cases shutdown with
  | false =>
      constructor
      · show (sortByIdx executed).map Prod.fst = List.range names.length
        refine sortByIdx_fst_range _ names.length hnd ?_
        intro i
        exact ⟨hsub i, hcomp rfl i⟩
      · intro h
        exact absurd h (by simp)
  | true =>
      have hfk := fillMissing_keys names (sortByIdx executed) hnd1 hsub1
      constructor
      · show (sortByIdx (fillMissingSkips (assignIndices names)
            (sortByIdx executed))).map Prod.fst = List.range names.length
        exact sortByIdx_fst_range _ names.length hfk.1 hfk.2
      · intro _ i hi hnot
        show (i, interruptSkip (names.getD i "")) ∈
          sortByIdx (fillMissingSkips (assignIndices names) (sortByIdx executed))
        have hnot1 : i ∉ (sortByIdx executed).map Prod.fst := fun hc =>
          hnot (hpf.mem_iff.mp hc)
        have hmem := fillMissing_skip_mem names _ i hi hnot1
        exact ((List.perm_insertionSort _ _).mem_iff).mpr hmem

/-- C1: in every execution mode — serial, parallel-fallback and parallel —
the indexed verdict list produced by `run_suite` (before the final index
stripping) carries exactly the discovery indices 0..N-1, each exactly once, in
ascending order, whether or not the shutdown flag tripped mid-run; and every
discovered case with no recorded result when shutdown is observed appears as a
synthesized interrupt-skip entry. Hypotheses record the shutdown flag's
monotonicity and, for the parallel mode, the work-queue discipline (each case
dequeued at most once, all of them absent a shutdown). -/
theorem run_suite_index_invariant (names : List String)
    (runRes : Nat → RunVerdict) (stop : Nat → Bool)
    (executed : List (Nat × RunVerdict)) (shutdown : Bool)
    (hmono : ∀ i j, i ≤ j → stop i = true → stop j = true)
    (hnd : (executed.map Prod.fst).Nodup)
    (hsub : ∀ i ∈ executed.map Prod.fst, i < names.length)
    (hcomp : shutdown = false → ∀ i, i < names.length →
      i ∈ executed.map Prod.fst) :
    ((run_suite_serial_pairs (assignIndices names) runRes stop).map Prod.fst =
        List.range names.length) ∧
    ((run_suite_fallback_pairs (assignIndices names) runRes stop).map Prod.fst =
        List.range names.length) ∧
    ((run_suite_parallel_pairs (assignIndices names) executed shutdown).map
        Prod.fst = List.range names.length) ∧
    (∀ i, i < names.length →
      i ∉ (serialLoop runRes stop (assignIndices names) 0).map Prod.fst →
      (i, interruptSkip (names.getD i "")) ∈
        run_suite_serial_pairs (assignIndices names) runRes stop) ∧
    (shutdown = true → ∀ i, i < names.length → i ∉ executed.map Prod.fst →
      (i, interruptSkip (names.getD i "")) ∈
        run_suite_parallel_pairs (assignIndices names) executed shutdown) := by
  obtain ⟨hs1, hs2⟩ := serial_pairs_spec names runRes stop hmono
  obtain ⟨hp1, hp2⟩ := parallel_pairs_spec names executed shutdown hnd hsub hcomp
  exact ⟨hs1, hs1, hp1, hs2, hp2⟩

/-- Concrete two-case instance of `run_suite_index_invariant` in serial mode
with no shutdown. -/
theorem run_suite_index_invariant_witness :
    (run_suite_serial_pairs (assignIndices ["a", "b"])
        (fun _ => ⟨"c", "pass", ""⟩) (fun _ => false)).map Prod.fst =
      List.range 2 :=
  (run_suite_index_invariant ["a", "b"] (fun _ => ⟨"c", "pass", ""⟩)
    (fun _ => false)
    [(0, ⟨"a", "pass", ""⟩), (1, ⟨"b", "pass", ""⟩)] false
    (by intro i j _ h; simp at h)
    (by decide)
    (by decide)
    (by intro _; decide)).1
